import Mathlib

/-!
Shallow embedding of the pii-redactor core (Go) for claim verification.

Conventions used throughout:
* A Go string is modelled as `GoStr := List Nat`, the list of its Unicode
  code points (runes).  Go's `len(s)` (a byte count) is modelled by
  `byteLen`, which sums the UTF-8 encoded size of each rune; `[]rune(s)`
  is the list itself.  Byte positions coincide with list indices exactly
  when every rune is below 128 (ASCII); all concrete texts used in
  position-sensitive theorems are ASCII.
* Go maps are modelled as association lists.  Go's map iteration order is
  unspecified and randomized; a particular association-list order stands
  for one admissible iteration order.
* Functions that can panic are modelled with `Option`, `none` standing
  for a runtime panic.
* Context/cancellation parameters are dropped: the embedded functions
  model the non-cancelled executions, which are the ones the claims are
  about.
-/

/-- A Go string as its list of Unicode code points (runes). -/
abbrev GoStr := List Nat

/-- Code points of a Lean string literal, for writing concrete Go strings. -/
def str (s : String) : GoStr := s.data.map Char.toNat

/-- UTF-8 encoded size in bytes of one rune (Go `utf8.RuneLen` for valid runes). -/
def utf8Size (c : Nat) : Nat :=
  if c < 128 then 1
  else if c < 2048 then 2
  else if c < 65536 then 3
  else 4

/-- UTF-8 encoding of one rune as bytes (valid scalar values; Go `utf8.EncodeRune`). -/
def utf8Encode (c : Nat) : List Nat :=
  if c < 128 then [c]
  else if c < 2048 then [192 + c / 64, 128 + c % 64]
  else if c < 65536 then [224 + c / 4096, 128 + (c / 64) % 64, 128 + c % 64]
  else [240 + c / 262144, 128 + (c / 4096) % 64, 128 + (c / 64) % 64, 128 + c % 64]

/-- Go `len(s)` for a string: its length in bytes. -/
def byteLen (s : GoStr) : Nat := (s.map utf8Size).sum

/-- Go `[]byte(s)`: UTF-8 bytes of a string. -/
def utf8Bytes (s : GoStr) : List Nat := s.flatMap utf8Encode

/-- Go `strings.Repeat(s, n)`. -/
def repeatStr (s : GoStr) : Nat → GoStr
  | 0 => []
  | n + 1 => s ++ repeatStr s n

namespace Sha256

/-! A direct embedding of SHA-256 (FIPS 180-4), as used by the redactor's
`hash` and `tokenize` masking strategies via Go's `crypto/sha256`. -/

def wmask : Nat := 4294967296

def rotr (n x : Nat) : Nat := ((x >>> n) + (x <<< (32 - n))) % wmask

def shr (n x : Nat) : Nat := x >>> n

def k : List Nat :=
  [1116352408, 1899447441, 3049323471, 3921009573, 961987163,
   1508970993, 2453635748, 2870763221, 3624381080, 310598401,
   607225278, 1426881987, 1925078388, 2162078206, 2614888103,
   3248222580, 3835390401, 4022224774, 264347078, 604807628,
   770255983, 1249150122, 1555081692, 1996064986, 2554220882,
   2821834349, 2952996808, 3210313671, 3336571891, 3584528711,
   113926993, 338241895, 666307205, 773529912, 1294757372,
   1396182291, 1695183700, 1986661051, 2177026350, 2456956037,
   2730485921, 2820302411, 3259730800, 3345764771, 3516065817,
   3600352804, 4094571909, 275423344, 430227734, 506948616,
   659060556, 883997877, 958139571, 1322822218, 1537002063,
   1747873779, 1955562222, 2024104815, 2227730452, 2361852424,
   2428436474, 2756734187, 3204031479, 3329325298]

def h0 : List Nat :=
  [1779033703, 3144134277, 1013904242, 2773480762,
   1359893119, 2600822924, 528734635, 1541459225]

/-- Pad a byte message per SHA-256. -/
def pad (msg : List Nat) : List Nat :=
  let bitLen := msg.length * 8
  let zeros := (55 + 64 - msg.length % 64) % 64
  msg ++ [128] ++ List.replicate zeros 0 ++
    [(bitLen >>> 56) % 256, (bitLen >>> 48) % 256, (bitLen >>> 40) % 256,
     (bitLen >>> 32) % 256, (bitLen >>> 24) % 256, (bitLen >>> 16) % 256,
     (bitLen >>> 8) % 256, bitLen % 256]

/-- Group bytes into big-endian 32-bit words. -/
def toWords : List Nat → List Nat
  | a :: b :: c :: d :: rest => (((a * 256 + b) * 256 + c) * 256 + d) :: toWords rest
  | _ => []

/-- Extend 16 words to the 64-word message schedule. -/
def extend (w : List Nat) (i : Nat) : List Nat :=
  if h : i ≥ 64 then w
  else
    let g := fun j => w.getD j 0
    let s0 := (rotr 7 (g (i - 15))).xor ((rotr 18 (g (i - 15))).xor (shr 3 (g (i - 15))))
    let s1 := (rotr 17 (g (i - 2))).xor ((rotr 19 (g (i - 2))).xor (shr 10 (g (i - 2))))
    extend (w ++ [(g (i - 16) + s0 + g (i - 7) + s1) % wmask]) (i + 1)
  termination_by 64 - i

/-- One round of the compression function. -/
def round (st : List Nat) (ki wi : Nat) : List Nat :=
  let g := fun j => st.getD j 0
  let a := g 0; let b := g 1; let c := g 2; let d := g 3
  let e := g 4; let f := g 5; let gg := g 6; let hh := g 7
  let s1 := (rotr 6 e).xor ((rotr 11 e).xor (rotr 25 e))
  let ch := (e.land f).xor ((wmask - 1 - e).land gg)
  let t1 := (hh + s1 + ch + ki + wi) % wmask
  let s0 := (rotr 2 a).xor ((rotr 13 a).xor (rotr 22 a))
  let mj := (a.land b).xor ((a.land c).xor (b.land c))
  let t2 := (s0 + mj) % wmask
  [(t1 + t2) % wmask, a, b, c, (d + t1) % wmask, e, f, gg]

/-- Process one 64-byte chunk. -/
def chunk (hs : List Nat) (bytes : List Nat) : List Nat :=
  let w := extend (toWords bytes) 16
  let st := (k.zip w).foldl (fun st p => round st p.1 p.2) hs
  (hs.zip st).map (fun p => (p.1 + p.2) % wmask)

def chunks (hs : List Nat) : List Nat → List Nat
  | [] => hs
  | b :: rest => chunks (chunk hs ((b :: rest).take 64)) (rest.drop 63)
  termination_by bytes => bytes.length
  decreasing_by
    simp only [List.length_drop, List.length_cons]
    omega

/-- SHA-256 digest (32 bytes) of a byte message. -/
def sha256 (msg : List Nat) : List Nat :=
  (chunks h0 (pad msg)).flatMap fun w =>
    [(w >>> 24) % 256, (w >>> 16) % 256, (w >>> 8) % 256, w % 256]

end Sha256

/-- Lowercase hex digit for a value below 16. -/
def hexDigit (n : Nat) : Nat := if n < 10 then 48 + n else 87 + n

/-- Go `hex.EncodeToString` over bytes, as runes. -/
def hexEncode (bytes : List Nat) : GoStr :=
  bytes.flatMap fun b => [hexDigit (b / 16), hexDigit (b % 16)]

namespace Patterns

/-- Go `patterns.PatternRule` (validator.go, `patterns` package): a regex
string with a confidence level. -/
structure PatternRule where
  regex : String
  confidence : String
deriving DecidableEq, Repr

/-- Go `patterns.MaskingStrategy`: `stype` embeds the Go field `Type`
(a reserved word in Lean). -/
structure MaskingStrategy where
  stype : String
  showFirst : Nat
  showLast : Nat
  maskChar : GoStr
  replacement : GoStr
deriving DecidableEq, Repr

/-- Go `patterns.PIIPatternSpec`. -/
structure PIIPatternSpec where
  displayName : String
  description : String
  category : String
  patterns : List PatternRule
  validator : String
  maskingStrategy : MaskingStrategy
  severity : String
  enabled : Bool
deriving DecidableEq, Repr

end Patterns

namespace Redactor

open Patterns

/-- Go `getMaskChar` (redactor): the strategy's mask char, defaulting to `"*"`. -/
def getMaskChar (strategy : MaskingStrategy) : GoStr :=
  if strategy.maskChar ≠ ([] : GoStr) then strategy.maskChar else [42]

/-- Go `applyPartialMasking` (redactor): operates on the rune slice of `text`. -/
def applyPartialMasking (text : GoStr) (strategy : MaskingStrategy) : GoStr :=
  let runes := text
  let length := runes.length
  let showFirst := strategy.showFirst
  let showLast := strategy.showLast
  let maskChar := getMaskChar strategy
  if showFirst + showLast ≥ length then
    repeatStr maskChar length
  else
    (runes.take showFirst) ++ repeatStr maskChar (length - showFirst - showLast) ++
      (runes.drop (length - showLast))

/-- Go `hashText` (redactor): `"[HASH:" + hex(sha256(text)[:8]) + "]"`. -/
def hashText (text : GoStr) : GoStr :=
  str "[HASH:" ++ hexEncode ((Sha256.sha256 (utf8Bytes text)).take 8) ++ str "]"

/-- Go `tokenize` (redactor): `"[TOKEN:" + hex(sha256(text)[:4]) + "]"`. -/
def tokenize (text : GoStr) : GoStr :=
  str "[TOKEN:" ++ hexEncode ((Sha256.sha256 (utf8Bytes text)).take 4) ++ str "]"

/-- Go `ApplyMasking` (redactor).  Note that in the `full` branch the Go
source repeats the mask char `len(text)` times, i.e. once per *byte* of
`text`, embedded here as `byteLen text`. -/
def applyMasking (text : GoStr) (strategy : MaskingStrategy) : GoStr :=
  if strategy.stype = "full" then
    if strategy.replacement ≠ ([] : GoStr) then strategy.replacement
    else repeatStr (getMaskChar strategy) (byteLen text)
  else if strategy.stype = "partial" then
    applyPartialMasking text strategy
  else if strategy.stype = "hash" then
    hashText text
  else if strategy.stype = "tokenize" then
    tokenize text
  else
    applyPartialMasking text strategy

end Redactor

namespace Regexp

/-!
A backtracking regular-expression engine standing in for Go's
`regexp` package on the regex features the built-in catalog uses
(character classes, alternation, greedy bounded/unbounded repetition,
word boundaries, case-insensitive literals).  Go's `regexp` implements
leftmost, Perl-priority matching; a backtracking search that tries
alternatives in syntactic order and prefers longer repetitions
implements exactly that priority.
-/

/-- An inclusive code-point range of a character class. -/
structure CRange where
  lo : Nat
  hi : Nat
deriving DecidableEq, Repr

/-- Regex abstract syntax (the compiled form stored by the engine). -/
inductive RE where
  | eps : RE
  | cls (neg : Bool) (ranges : List CRange) : RE
  | seq (a b : RE) : RE
  | alt (a b : RE) : RE
  | star (a : RE) : RE
  | wordB : RE
deriving DecidableEq, Repr

/-- Membership of a code point in a class's ranges. -/
def inRanges (c : Nat) : List CRange → Bool
  | [] => false
  | r :: rs => (decide (r.lo ≤ c) && decide (c ≤ r.hi)) || inRanges c rs

/-- Go regexp word characters (`\b` boundary set): `[0-9A-Za-z_]`. -/
def isWordChar (c : Nat) : Bool :=
  (decide (48 ≤ c) && decide (c ≤ 57)) || (decide (65 ≤ c) && decide (c ≤ 90)) ||
    (decide (97 ≤ c) && decide (c ≤ 122)) || decide (c = 95)

/-- Backtracking matcher in continuation-passing style.  `prev` is the rune
just before the current position (for `\b`), `k` the continuation receiving
the new `prev` and the remaining input; the first success (in Perl priority
order) wins.  `fuel` bounds recursion depth; every use gives enough fuel. -/
def matchM (fuel : Nat) (r : RE) (prev : Option Nat) (s : List Nat)
    (k : Option Nat → List Nat → Option (List Nat)) : Option (List Nat) :=
  match fuel with
  | 0 => none
  | fuel + 1 =>
    match r with
    | .eps => k prev s
    | .cls neg ranges =>
      match s with
      | [] => none
      | c :: rest => if inRanges c ranges ≠ neg then k (some c) rest else none
    | .seq a b => matchM fuel a prev s (fun p s2 => matchM fuel b p s2 k)
    | .alt a b =>
      match matchM fuel a prev s k with
      | some res => some res
      | none => matchM fuel b prev s k
    | .star a =>
      match matchM fuel a prev s (fun p s2 =>
          if s2.length < s.length then matchM fuel (.star a) p s2 k else none) with
      | some res => some res
      | none => k prev s
    | .wordB =>
      let before := match prev with | none => false | some c => isWordChar c
      let after := match s with | [] => false | c :: _ => isWordChar c
      if before ≠ after then k prev s else none

/-- Fuel that is always sufficient for the patterns and inputs in this file. -/
def bigFuel : Nat := 3000

/-- Length of the leftmost-priority match of `r` at the current position,
if any. -/
def matchHere (r : RE) (prev : Option Nat) (s : List Nat) : Option Nat :=
  match matchM bigFuel r prev s (fun _ rest => some rest) with
  | some rest => some (s.length - rest.length)
  | none => none

/-- Go `FindAllStringIndex(text, -1)`: successive non-overlapping leftmost
matches; after a non-empty match the search resumes at its end (after an
empty match, one rune further).  (Go additionally suppresses an empty match
abutting the previous match; no regex in this file can match empty, so that
case never arises.) -/
def findAllAux : Nat → RE → Option Nat → List Nat → Nat → List (Nat × Nat)
  | 0, _, _, _, _ => []
  | fuel + 1, r, prev, s, pos =>
    match matchHere r prev s with
    | some len =>
      if len = 0 then
        (pos, pos) :: (match s with
          | [] => []
          | c :: rest => findAllAux fuel r (some c) rest (pos + 1))
      else
        (pos, pos + len) ::
          findAllAux fuel r ((s.take len).getLast? ) (s.drop len) (pos + len)
    | none =>
      match s with
      | [] => []
      | c :: rest => findAllAux fuel r (some c) rest (pos + 1)

/-- All match ranges (start, end) of `r` in `s`. -/
def findAll (r : RE) (s : List Nat) : List (Nat × Nat) :=
  findAllAux (s.length + 1) r none s 0

/-! Constructors for translating the catalog's regex strings. -/

/-- Class of a single code point. -/
def one (c : Nat) : RE := .cls false [⟨c, c⟩]

/-- Positive class from ranges. -/
def cl (ranges : List CRange) : RE := .cls false ranges

/-- Negated class from ranges. -/
def ncl (ranges : List CRange) : RE := .cls true ranges

/-- Literal string. -/
def lit (s : String) : RE :=
  s.data.foldr (fun c r => .seq (one c.toNat) r) .eps

/-- Case-insensitive literal (for regexes under a `(?i)` flag): each ASCII
letter becomes a two-point class. -/
def litCI (s : String) : RE :=
  s.data.foldr (fun c r =>
    let n := c.toNat
    if 97 ≤ n ∧ n ≤ 122 then .seq (cl [⟨n, n⟩, ⟨n - 32, n - 32⟩]) r
    else if 65 ≤ n ∧ n ≤ 90 then .seq (cl [⟨n, n⟩, ⟨n + 32, n + 32⟩]) r
    else .seq (one n) r) .eps

/-- Sequencing of a list of regexes. -/
def seqL (rs : List RE) : RE := rs.foldr .seq .eps

/-- Alternation of a list of regexes, in priority order. -/
def altL : List RE → RE
  | [] => .eps
  | [r] => r
  | r :: rs => .alt r (altL rs)

/-- Greedy `r?`. -/
def opt (r : RE) : RE := .alt r .eps

/-- Go `r{n}`: exactly `n` copies. -/
def rep (r : RE) : Nat → RE
  | 0 => .eps
  | n + 1 => .seq r (rep r n)

/-- Greedy `r{0,n}` as nested optionals. -/
def upto (r : RE) : Nat → RE
  | 0 => .eps
  | n + 1 => .alt (.seq r (upto r n)) .eps

/-- Greedy `r{m,n}`. -/
def btw (r : RE) (m n : Nat) : RE := .seq (rep r m) (upto r (n - m))

/-- Greedy `r{m,}`. -/
def atLeast (r : RE) (m : Nat) : RE := .seq (rep r m) (.star r)

/-- Go `\d`. -/
def dC : RE := cl [⟨48, 57⟩]

/-- Go regexp `\s` = `[\t\n\f\r ]`. -/
def sC : RE := cl [⟨9, 10⟩, ⟨12, 13⟩, ⟨32, 32⟩]

/-- Go `.` (any rune but newline). -/
def dotC : RE := ncl [⟨10, 10⟩]

/-- Go `[0-9a-zA-Z]`. -/
def alnum : RE := cl [⟨48, 57⟩, ⟨97, 122⟩, ⟨65, 90⟩]

/-- Go `[0-9a-fA-F]`. -/
def hexC : RE := cl [⟨48, 57⟩, ⟨97, 102⟩, ⟨65, 70⟩]

/-- Go `[A-Z]`. -/
def upperC : RE := cl [⟨65, 90⟩]

end Regexp

namespace GoMap

/-! Go maps as association lists: `insert` replaces in place (preserving
the stand-in iteration order), `erase` models `delete`. -/

def lookup {κ ν : Type} [DecidableEq κ] : List (κ × ν) → κ → Option ν
  | [], _ => none
  | (k, v) :: rest, key => if k = key then some v else lookup rest key

def insert {κ ν : Type} [DecidableEq κ] : List (κ × ν) → κ → ν → List (κ × ν)
  | [], key, val => [(key, val)]
  | (k, v) :: rest, key, val =>
    if k = key then (key, val) :: rest else (k, v) :: insert rest key val

def erase {κ ν : Type} [DecidableEq κ] : List (κ × ν) → κ → List (κ × ν)
  | [], _ => []
  | (k, v) :: rest, key => if k = key then rest else (k, v) :: erase rest key

end GoMap

namespace Validator

/-! `internal/detector/validator/validator.go`: the four checksum
validators and the registry. -/

/-- Go `LuhnValidator.Validate`. -/
def luhnValidate (input : GoStr) : Bool :=
  let digits := input.filter fun c => decide (48 ≤ c) && decide (c ≤ 57)
  if digits.length < 13 || digits.length > 19 then false
  else
    let step := fun (acc : Nat × Bool) (d : Nat) =>
      let n := d - 48
      let n := if acc.2 then (if n * 2 > 9 then n * 2 - 9 else n * 2) else n
      (acc.1 + n, !acc.2)
    (digits.reverse.foldl step (0, false)).1 % 10 == 0

/-- Go `KoreanRRNValidator.Validate`. -/
def rrnValidate (input : GoStr) : Bool :=
  let digits := input.filter fun c => decide (c ≠ 45)
  if digits.length ≠ 13 then false
  else if !(digits.all fun c => decide (48 ≤ c) && decide (c ≤ 57)) then false
  else
    let weights := [2, 3, 4, 5, 6, 7, 8, 9, 2, 3, 4, 5]
    let sum := ((digits.take 12).zip weights).foldl (fun a p => a + (p.1 - 48) * p.2) 0
    digits.getD 12 0 - 48 == (11 - sum % 11) % 10

/-- Go `KoreanBusinessNumberValidator.Validate`. -/
def brnValidate (input : GoStr) : Bool :=
  let digits := input.filter fun c => decide (c ≠ 45)
  if digits.length ≠ 10 then false
  else if !(digits.all fun c => decide (48 ≤ c) && decide (c ≤ 57)) then false
  else
    let weights := [1, 3, 7, 1, 3, 7, 1, 3, 5]
    let sum := ((digits.take 9).zip weights).foldl (fun a p => a + (p.1 - 48) * p.2) 0
    let sum := sum + ((digits.getD 8 0 - 48) * 5) / 10
    digits.getD 9 0 - 48 == (10 - sum % 10) % 10

/-- ASCII uppercase mapping (the part of `strings.ToUpper` exercised here:
non-ASCII letters would be rejected by the character check below either way
for all inputs the catalog's IBAN regex can produce). -/
def toUpperAscii (c : Nat) : Nat :=
  if decide (97 ≤ c) && decide (c ≤ 122) then c - 32 else c

/-- Go `IBANValidator.Validate` with `mod97` fused into the left-to-right
expansion fold (a letter contributes its two decimal digits). -/
def ibanValidate (input : GoStr) : Bool :=
  let iban := (input.map toUpperAscii).filter fun c => decide (c ≠ 32)
  if iban.length < 15 || iban.length > 34 then false
  else
    let rearranged := iban.drop 4 ++ iban.take 4
    let step := fun (acc : Option Nat) (c : Nat) =>
      match acc with
      | none => none
      | some r =>
        if decide (65 ≤ c) && decide (c ≤ 90) then some ((r * 100 + (c - 55)) % 97)
        else if decide (48 ≤ c) && decide (c ≤ 57) then some ((r * 10 + (c - 48)) % 97)
        else none
    match rearranged.foldl step (some 0) with
    | none => false
    | some r => r == 1

/-- The validator `Registry`. -/
def registry (name : String) : Option (GoStr → Bool) :=
  if name = "luhn" then some luhnValidate
  else if name = "rrn-checksum" then some rrnValidate
  else if name = "business-number-checksum" then some brnValidate
  else if name = "iban-checksum" then some ibanValidate
  else none

end Validator

namespace Detector

open Patterns

/-- Go `compiledRule` (engine.go): a compiled regex with its confidence. -/
structure CompiledRule where
  regex : Regexp.RE
  confidence : String
deriving DecidableEq, Repr

/-- Go `CompiledPattern` (engine.go). -/
structure CompiledPattern where
  name : String
  displayName : String
  category : String
  patterns : List CompiledRule
  validator : String
  maskingStrategy : MaskingStrategy
  severity : String
  enabled : Bool
deriving DecidableEq, Repr

/-- Go `Engine` (engine.go): the pattern map (as an association list standing
for one iteration order) and the validation toggle.  The validator map is
the fixed `Validator.registry`. -/
structure Engine where
  patterns : List (String × CompiledPattern)
  validationEnabled : Bool
deriving DecidableEq, Repr

/-- Go `DetectionResult` (engine.go); `start`/`stop` embed `Position.Start` /
`Position.End` (`end` is reserved in Lean). -/
structure DetectionResult where
  patternName : String
  displayName : String
  matchedText : GoStr
  start : Nat
  stop : Nat
  confidence : String
  severity : String
  redactedText : GoStr
deriving DecidableEq, Repr

/-- Go `text[a:b]` (on ASCII text, where byte offsets are rune offsets). -/
def substr (text : GoStr) (a b : Nat) : GoStr := (text.take b).drop a

/-- The validation filter inside the detection loops: a match is dropped
only when validation is enabled, the pattern names a validator, the
validator is registered, and it returns false. -/
def keepMatch (e : Engine) (pat : CompiledPattern) (matched : GoStr) : Bool :=
  if e.validationEnabled && pat.validator ≠ "" then
    match Validator.registry pat.validator with
    | some v => v matched
    | none => true
  else true

/-- The shared inner loop of `DetectInText` / `DetectWithPatterns`: all
matches of all rules of one pattern, validated. -/
def scanPattern (e : Engine) (pat : CompiledPattern) (text : GoStr) : List DetectionResult :=
  pat.patterns.flatMap fun rule =>
    (Regexp.findAll rule.regex text).filterMap fun m =>
      let matched := substr text m.1 m.2
      if keepMatch e pat matched then
        some ⟨pat.name, pat.displayName, matched, m.1, m.2, rule.confidence, pat.severity, []⟩
      else none

/-- Go `DetectInText`: scan every *enabled* pattern (cancellation never
trips in the executions modelled here). -/
def detectInText (e : Engine) (text : GoStr) : List DetectionResult :=
  e.patterns.flatMap fun kv => if kv.2.enabled then scanPattern e kv.2 text else []

/-- Go `DetectWithPatterns`: scan exactly the named patterns, skipping
unknown names, with no enabled check. -/
def detectWithPatterns (e : Engine) (text : GoStr) (patternNames : List String) :
    List DetectionResult :=
  patternNames.flatMap fun name =>
    match GoMap.lookup e.patterns name with
    | none => []
    | some pat => scanPattern e pat text

/-- Go `GetMaskingStrategy`. -/
def getMaskingStrategy (e : Engine) (patternName : String) : Option MaskingStrategy :=
  (GoMap.lookup e.patterns patternName).map (·.maskingStrategy)

/-- Go `EnablePattern`. -/
def enablePattern (e : Engine) (name : String) : Engine :=
  match GoMap.lookup e.patterns name with
  | some pat => { e with patterns := GoMap.insert e.patterns name { pat with enabled := true } }
  | none => e

/-- Go `DisablePattern`. -/
def disablePattern (e : Engine) (name : String) : Engine :=
  match GoMap.lookup e.patterns name with
  | some pat => { e with patterns := GoMap.insert e.patterns name { pat with enabled := false } }
  | none => e

/-- The compile loop of `AddPattern`: `none` at the first regex
`regexp.Compile` rejects (the Go function returns that error).  The regex
compiler is a parameter of the embedding. -/
def compileRules (compile : String → Option Regexp.RE) :
    List PatternRule → Option (List CompiledRule)
  | [] => some []
  | p :: ps =>
    match compile p.regex with
    | none => none
    | some re =>
      match compileRules compile ps with
      | none => none
      | some rest => some (⟨re, p.confidence⟩ :: rest)

/-- Go `AddPattern`: first component is the returned Go `error` (`some` on
compile failure), second the engine state after the call.  The fields
`Category` and `Enabled` are absent from the Go composite literal, so the
stored pattern gets their zero values `""` and `false`. -/
def addPattern (compile : String → Option Regexp.RE) (e : Engine) (name : String)
    (spec : PIIPatternSpec) : Option String × Engine :=
  match compileRules compile spec.patterns with
  | none => (some "compile error", e)
  | some rules =>
    (none,
     { e with
       patterns := GoMap.insert e.patterns name
         { name := name
           displayName := spec.displayName
           category := ""
           patterns := rules
           validator := spec.validator
           maskingStrategy := spec.maskingStrategy
           severity := spec.severity
           enabled := false } })

end Detector

namespace Builtin

open Regexp Patterns Detector

/-! The compiled form of `patterns.BuiltInPatterns` (validator.go,
`patterns` package), as produced by `loadBuiltInPatterns` (which copies
every spec field, compiling each regex; every built-in regex compiles).
Every character class is written with explicit code-point ranges; the doc
comment of each definition quotes the Go regex it translates. -/

/-- Class `['\"]` (quote or double quote). -/
def qcls : RE := cl [⟨39, 39⟩, ⟨34, 34⟩]

/-- Regex `[a-zA-Z0-9._%+-]+@[a-zA-Z0-9.-]+\.[a-zA-Z]{2,}` (email). -/
def emailRE : RE :=
  seqL [atLeast (cl [⟨97, 122⟩, ⟨65, 90⟩, ⟨48, 57⟩, ⟨46, 46⟩, ⟨95, 95⟩, ⟨37, 37⟩,
          ⟨43, 43⟩, ⟨45, 45⟩]) 1,
        one 64,
        atLeast (cl [⟨97, 122⟩, ⟨65, 90⟩, ⟨48, 57⟩, ⟨46, 46⟩, ⟨45, 45⟩]) 1,
        one 46,
        atLeast (cl [⟨97, 122⟩, ⟨65, 90⟩]) 2]

/-- Regex `\b(?:4[0-9]{12}(?:[0-9]{3})?|5[1-5][0-9]{14}|3[47][0-9]{13}|6(?:011|5[0-9]{2})[0-9]{12})\b` (credit card, rule 1). -/
def ccRE1 : RE :=
  seqL [.wordB,
        altL [seqL [one 52, rep dC 12, opt (rep dC 3)],
              seqL [one 53, cl [⟨49, 53⟩], rep dC 14],
              seqL [one 51, cl [⟨52, 52⟩, ⟨55, 55⟩], rep dC 13],
              seqL [one 54, altL [lit "011", .seq (one 53) (rep dC 2)], rep dC 12]],
        .wordB]

/-- Regex `\d{4}[- ]?\d{4}[- ]?\d{4}[- ]?\d{4}` (credit card, rule 2). -/
def ccRE2 : RE :=
  seqL [rep dC 4, opt (cl [⟨45, 45⟩, ⟨32, 32⟩]), rep dC 4, opt (cl [⟨45, 45⟩, ⟨32, 32⟩]),
        rep dC 4, opt (cl [⟨45, 45⟩, ⟨32, 32⟩]), rep dC 4]

/-- Sub-regex `(?:25[0-5]|2[0-4][0-9]|[01]?[0-9][0-9]?)` (IPv4 octet). -/
def octetRE : RE :=
  altL [seqL [lit "25", cl [⟨48, 53⟩]],
        seqL [one 50, cl [⟨48, 52⟩], dC],
        seqL [opt (cl [⟨48, 49⟩]), dC, opt dC]]

/-- Regex `\b(?:(?:25[0-5]|2[0-4][0-9]|[01]?[0-9][0-9]?)\.){3}(?:25[0-5]|2[0-4][0-9]|[01]?[0-9][0-9]?)\b` (IPv4). -/
def ipv4RE : RE :=
  seqL [.wordB, rep (.seq octetRE (one 46)) 3, octetRE, .wordB]

/-- Regex `(?:[0-9a-fA-F]{1,4}:){7}[0-9a-fA-F]{1,4}` (IPv6, rule 1). -/
def ipv6RE1 : RE :=
  .seq (rep (.seq (btw hexC 1 4) (one 58)) 7) (btw hexC 1 4)

/-- Regex `(?:[0-9a-fA-F]{1,4}:){1,7}:` (IPv6, rule 2). -/
def ipv6RE2 : RE :=
  .seq (btw (.seq (btw hexC 1 4) (one 58)) 1 7) (one 58)

/-- Class `[A-Z0-9]`. -/
def azdC : RE := cl [⟨65, 90⟩, ⟨48, 57⟩]

/-- Regex `[A-Z]{2}\d{2}[A-Z0-9]{4}\d{7}(?:[A-Z0-9]?){0,16}` (IBAN). -/
def ibanRE : RE :=
  seqL [rep upperC 2, rep dC 2, rep azdC 4, rep dC 7, upto (opt azdC) 16]

/-- Regex `(?:[0-9A-Fa-f]{2}[:-]){5}[0-9A-Fa-f]{2}` (MAC address). -/
def macRE : RE :=
  .seq (rep (.seq (rep hexC 2) (cl [⟨58, 58⟩, ⟨45, 45⟩])) 5) (rep hexC 2)

/-- Regex `\b\d{3}-\d{2}-\d{4}\b` (US SSN, rule 1). -/
def ssnRE1 : RE :=
  seqL [.wordB, rep dC 3, one 45, rep dC 2, one 45, rep dC 4, .wordB]

/-- Regex `\b\d{9}\b` (US SSN rule 2, US passport, US routing number). -/
def nineDigitsRE : RE := seqL [.wordB, rep dC 9, .wordB]

/-- Class `[-.\s]` (US phone separators). -/
def phoneSepC : RE := cl [⟨45, 45⟩, ⟨46, 46⟩, ⟨9, 10⟩, ⟨12, 13⟩, ⟨32, 32⟩]

/-- Regex `\b(?:\+1[-.\s]?)?\(?[2-9]\d{2}\)?[-.\s]?\d{3}[-.\s]?\d{4}\b` (US phone). -/
def phoneUsRE : RE :=
  seqL [.wordB, opt (seqL [one 43, one 49, opt phoneSepC]), opt (one 40),
        cl [⟨50, 57⟩], rep dC 2, opt (one 41), opt phoneSepC, rep dC 3, opt phoneSepC,
        rep dC 4, .wordB]

/-- Regex `\b[A-Z]{1,2}\d{5,8}\b` (US driver license). -/
def dlUsRE : RE := seqL [.wordB, btw upperC 1 2, btw dC 5 8, .wordB]

/-- Regex `\b9\d{2}-[7-9]\d-\d{4}\b` (US ITIN). -/
def itinRE : RE :=
  seqL [.wordB, one 57, rep dC 2, one 45, cl [⟨55, 57⟩], dC, one 45, rep dC 4, .wordB]

/-- Class `[AC-HJKMNP-RT-Y]` (US Medicare letters). -/
def mbiLetterC : RE := cl [⟨65, 65⟩, ⟨67, 72⟩, ⟨74, 75⟩, ⟨77, 78⟩, ⟨80, 82⟩, ⟨84, 89⟩]

/-- Class `[AC-HJKMNP-RT-Y0-9]`. -/
def mbiLetterDigitC : RE :=
  cl [⟨65, 65⟩, ⟨67, 72⟩, ⟨74, 75⟩, ⟨77, 78⟩, ⟨80, 82⟩, ⟨84, 89⟩, ⟨48, 57⟩]

/-- Regex `\b[1-9][AC-HJKMNP-RT-Y][AC-HJKMNP-RT-Y0-9]\d[AC-HJKMNP-RT-Y][AC-HJKMNP-RT-Y0-9]\d[AC-HJKMNP-RT-Y]{2}\d{2}\b` (US Medicare MBI). -/
def medicareRE : RE :=
  seqL [.wordB, cl [⟨49, 57⟩], mbiLetterC, mbiLetterDigitC, dC, mbiLetterC,
        mbiLetterDigitC, dC, rep mbiLetterC 2, rep dC 2, .wordB]

/-- Regex `\b\d{2}-\d{7}\b` (US EIN). -/
def einRE : RE := seqL [.wordB, rep dC 2, one 45, rep dC 7, .wordB]

/-- Regex `\b[A-Z][A-Z9][0-9]{7}\b` (US DEA number). -/
def deaRE : RE :=
  seqL [.wordB, upperC, cl [⟨65, 90⟩, ⟨57, 57⟩], rep dC 7, .wordB]

/-- Regex `\d{6}-[1-4]\d{6}` (Korean RRN, rule 1). -/
def rrnRE1 : RE := seqL [rep dC 6, one 45, cl [⟨49, 52⟩], rep dC 6]

/-- Regex `\d{6}[1-4]\d{6}` (Korean RRN, rule 2). -/
def rrnRE2 : RE := seqL [rep dC 6, cl [⟨49, 52⟩], rep dC 6]

/-- Regex `01[016789]-?\d{3,4}-?\d{4}` (Korean phone, rule 1). -/
def phoneKrRE1 : RE :=
  seqL [one 48, one 49, cl [⟨48, 49⟩, ⟨54, 57⟩], opt (one 45), btw dC 3 4,
        opt (one 45), rep dC 4]

/-- Regex `02-?\d{3,4}-?\d{4}` (Korean phone, rule 2). -/
def phoneKrRE2 : RE :=
  seqL [one 48, one 50, opt (one 45), btw dC 3 4, opt (one 45), rep dC 4]

/-- Regex `0[3-6][1-5]-?\d{3,4}-?\d{4}` (Korean phone, rule 3). -/
def phoneKrRE3 : RE :=
  seqL [one 48, cl [⟨51, 54⟩], cl [⟨49, 53⟩], opt (one 45), btw dC 3 4,
        opt (one 45), rep dC 4]

/-- Regex `[A-Z]{1,2}\d{7,8}` (Korean passport). -/
def passportKrRE : RE := .seq (btw upperC 1 2) (btw dC 7 8)

/-- Regex `\d{2}-\d{2}-\d{6}-\d{2}` (Korean driver license). -/
def dlKrRE : RE :=
  seqL [rep dC 2, one 45, rep dC 2, one 45, rep dC 6, one 45, rep dC 2]

/-- Regex `\d{3}-\d{2}-\d{5}` (Korean business number). -/
def brnRE : RE := seqL [rep dC 3, one 45, rep dC 2, one 45, rep dC 5]

/-- Regex `\d{6}-[5-8]\d{6}` (Korean foreign registration). -/
def frnRE : RE := seqL [rep dC 6, one 45, cl [⟨53, 56⟩], rep dC 6]

/-- Regex `AKIA[0-9A-Z]{16}` (AWS access key). -/
def awsAccessRE : RE := .seq (lit "AKIA") (rep (cl [⟨48, 57⟩, ⟨65, 90⟩]) 16)

/-- Regex `(?i)aws.{0,20}secret.{0,20}['\"][0-9a-zA-Z/+]{40}['\"]` (AWS secret key). -/
def awsSecretRE : RE :=
  seqL [litCI "aws", upto dotC 20, litCI "secret", upto dotC 20, qcls,
        rep (cl [⟨48, 57⟩, ⟨97, 122⟩, ⟨65, 90⟩, ⟨47, 47⟩, ⟨43, 43⟩]) 40, qcls]

/-- Regex `ghp_[0-9a-zA-Z]{36}` and its four siblings (GitHub tokens). -/
def githubRE (tag : String) : RE := .seq (lit tag) (rep alnum 36)

/-- Class `[0-9a-zA-Z\-_]` / `[0-9A-Za-z\-_]` (token body characters). -/
def tokenC : RE := cl [⟨48, 57⟩, ⟨97, 122⟩, ⟨65, 90⟩, ⟨45, 45⟩, ⟨95, 95⟩]

/-- Regex `glpat-[0-9a-zA-Z\-_]{20}` (GitLab token). -/
def gitlabRE : RE := .seq (lit "glpat-") (rep tokenC 20)

/-- Regex `xox[baprs]-[0-9a-zA-Z]{10,48}` (Slack token). -/
def slackRE : RE :=
  seqL [lit "xox", cl [⟨97, 98⟩, ⟨112, 112⟩, ⟨114, 115⟩], one 45, btw alnum 10 48]

/-- Regex `AIza[0-9A-Za-z\-_]{35}` (Google API key). -/
def googleRE : RE := .seq (lit "AIza") (rep tokenC 35)

/-- Regex `(?i)(?:api[_-]?key|apikey|api_secret)['\"]?\s*[:=]\s*['\"]?[0-9a-zA-Z]{16,64}['\"]?` (generic API key). -/
def apiKeyRE : RE :=
  seqL [altL [seqL [litCI "api", opt (cl [⟨95, 95⟩, ⟨45, 45⟩]), litCI "key"],
              litCI "apikey", litCI "api_secret"],
        opt qcls, .star sC, cl [⟨58, 58⟩, ⟨61, 61⟩], .star sC, opt qcls,
        btw alnum 16 64, opt qcls]

/-- Regex `eyJ[a-zA-Z0-9_-]*\.eyJ[a-zA-Z0-9_-]*\.[a-zA-Z0-9_-]*` (JWT). -/
def jwtRE : RE :=
  seqL [lit "eyJ", .star tokenC, one 46, lit "eyJ", .star tokenC, one 46, .star tokenC]

/-- Regex `-----BEGIN (?:RSA |DSA |EC |OPENSSH )?PRIVATE KEY-----` (private key). -/
def privateKeyRE : RE :=
  seqL [lit "-----BEGIN ",
        opt (altL [lit "RSA ", lit "DSA ", lit "EC ", lit "OPENSSH "]),
        lit "PRIVATE KEY-----"]

/-- Regex `(?i)(?:https?://)[^:]+:([^@]+)@` (password in URL); the capture
group only groups for `Find`-style searches. -/
def pwUrlRE : RE :=
  seqL [litCI "http", opt (cl [⟨115, 115⟩, ⟨83, 83⟩]), lit "://",
        atLeast (ncl [⟨58, 58⟩]) 1, one 58, atLeast (ncl [⟨64, 64⟩]) 1, one 64]

/-- Regex `(?i)(?:password|passwd|pwd)['\"]?\s*[:=]\s*['\"]?[^\s'"]{8,}['\"]?` (generic password). -/
def passwordRE : RE :=
  seqL [altL [litCI "password", litCI "passwd", litCI "pwd"],
        opt qcls, .star sC, cl [⟨58, 58⟩, ⟨61, 61⟩], .star sC, opt qcls,
        atLeast (ncl [⟨9, 10⟩, ⟨12, 13⟩, ⟨32, 32⟩, ⟨39, 39⟩, ⟨34, 34⟩]) 8, opt qcls]

/-- Regex `(?i)(?:mongodb|postgres|mysql|redis|amqp):\/\/[^:]+:[^@]+@` (DB connection string). -/
def dbConnRE : RE :=
  seqL [altL [litCI "mongodb", litCI "postgres", litCI "mysql", litCI "redis",
              litCI "amqp"],
        lit "://", atLeast (ncl [⟨58, 58⟩]) 1, one 58, atLeast (ncl [⟨64, 64⟩]) 1, one 64]

/-- Regex `sk_live_[0-9a-zA-Z]{24}` and its three siblings (Stripe keys). -/
def stripeRE (tag : String) : RE := .seq (lit tag) (rep alnum 24)

/-- Regex `SG\.[0-9A-Za-z\-_]{22}\.[0-9A-Za-z\-_]{43}` (SendGrid key). -/
def sendgridRE : RE :=
  seqL [lit "SG", one 46, rep tokenC 22, one 46, rep tokenC 43]

/-- Regex `AC[0-9a-fA-F]{32}` / `SK[0-9a-fA-F]{32}` (Twilio SID / key). -/
def twilioRE (tag : String) : RE := .seq (lit tag) (rep hexC 32)

end Builtin

namespace Builtin

open Regexp Patterns Detector

/-- One entry of the compiled catalog; field order mirrors
`CompiledPattern`. -/
def entry (name displayName category : String) (rules : List CompiledRule)
    (validator : String) (strategy : MaskingStrategy) (severity : String)
    (enabled : Bool) : String × CompiledPattern :=
  (name, ⟨name, displayName, category, rules, validator, strategy, severity, enabled⟩)

/-- The engine's pattern map right after `NewEngine` /
`loadBuiltInPatterns`, in the source-literal order of
`patterns.BuiltInPatterns` (one admissible map iteration order). -/
def builtinPatterns : List (String × CompiledPattern) :=
  [entry "email" "Email Address" "global" [⟨emailRE, "high"⟩] ""
     ⟨"partial", 2, 0, str "*", []⟩ "medium" true,
   entry "credit-card" "Credit Card Number" "global"
     [⟨ccRE1, "high"⟩, ⟨ccRE2, "medium"⟩] "luhn"
     ⟨"partial", 4, 4, str "*", []⟩ "critical" true,
   entry "ip-address" "IP Address" "global" [⟨ipv4RE, "high"⟩] ""
     ⟨"full", 0, 0, [], str "[IP_REDACTED]"⟩ "low" false,
   entry "ipv6-address" "IPv6 Address" "global"
     [⟨ipv6RE1, "high"⟩, ⟨ipv6RE2, "medium"⟩] ""
     ⟨"full", 0, 0, [], str "[IPv6_REDACTED]"⟩ "low" false,
   entry "iban" "IBAN" "global" [⟨ibanRE, "high"⟩] "iban-checksum"
     ⟨"partial", 4, 4, str "*", []⟩ "critical" true,
   entry "mac-address" "MAC Address" "global" [⟨macRE, "high"⟩] ""
     ⟨"partial", 8, 0, str "*", []⟩ "low" false,
   entry "ssn-us" "US Social Security Number" "usa"
     [⟨ssnRE1, "high"⟩, ⟨nineDigitsRE, "low"⟩] ""
     ⟨"partial", 0, 4, str "*", []⟩ "critical" true,
   entry "phone-us" "US Phone Number" "usa" [⟨phoneUsRE, "high"⟩] ""
     ⟨"partial", 3, 4, str "*", []⟩ "high" true,
   entry "driver-license-us" "US Driver License" "usa" [⟨dlUsRE, "medium"⟩] ""
     ⟨"partial", 2, 0, str "*", []⟩ "critical" false,
   entry "passport-us" "US Passport Number" "usa" [⟨nineDigitsRE, "low"⟩] ""
     ⟨"partial", 2, 0, str "*", []⟩ "critical" false,
   entry "routing-number-us" "US Bank Routing Number" "usa" [⟨nineDigitsRE, "low"⟩] ""
     ⟨"partial", 0, 4, str "*", []⟩ "high" false,
   entry "itin-us" "US ITIN" "usa" [⟨itinRE, "high"⟩] ""
     ⟨"partial", 0, 4, str "*", []⟩ "critical" true,
   entry "medicare-us" "US Medicare ID" "usa" [⟨medicareRE, "high"⟩] ""
     ⟨"partial", 0, 4, str "*", []⟩ "critical" true,
   entry "ein-us" "US EIN" "usa" [⟨einRE, "high"⟩] ""
     ⟨"partial", 2, 0, str "*", []⟩ "high" true,
   entry "dea-us" "US DEA Number" "usa" [⟨deaRE, "high"⟩] ""
     ⟨"partial", 2, 0, str "*", []⟩ "critical" true,
   entry "korean-rrn" "Korean Resident Registration Number" "korea"
     [⟨rrnRE1, "high"⟩, ⟨rrnRE2, "medium"⟩] "rrn-checksum"
     ⟨"partial", 6, 0, str "*", []⟩ "critical" true,
   entry "phone-kr" "Korean Phone Number" "korea"
     [⟨phoneKrRE1, "high"⟩, ⟨phoneKrRE2, "high"⟩, ⟨phoneKrRE3, "high"⟩] ""
     ⟨"partial", 3, 4, str "*", []⟩ "high" true,
   entry "passport-kr" "Korean Passport Number" "korea" [⟨passportKrRE, "medium"⟩] ""
     ⟨"partial", 2, 0, str "*", []⟩ "critical" true,
   entry "driver-license-kr" "Korean Driver License" "korea" [⟨dlKrRE, "high"⟩] ""
     ⟨"partial", 5, 0, str "*", []⟩ "critical" true,
   entry "business-number-kr" "Korean Business Registration Number" "korea"
     [⟨brnRE, "high"⟩] "business-number-checksum"
     ⟨"partial", 3, 0, str "*", []⟩ "high" true,
   entry "foreign-registration-kr" "Korean Foreign Registration Number" "korea"
     [⟨frnRE, "high"⟩] ""
     ⟨"partial", 6, 0, str "*", []⟩ "critical" true,
   entry "aws-access-key" "AWS Access Key ID" "secrets" [⟨awsAccessRE, "high"⟩] ""
     ⟨"partial", 4, 0, str "*", []⟩ "critical" true,
   entry "aws-secret-key" "AWS Secret Access Key" "secrets" [⟨awsSecretRE, "high"⟩] ""
     ⟨"full", 0, 0, [], str "[AWS_SECRET_REDACTED]"⟩ "critical" true,
   entry "github-token" "GitHub Token" "secrets"
     [⟨githubRE "ghp_", "high"⟩, ⟨githubRE "gho_", "high"⟩, ⟨githubRE "ghu_", "high"⟩,
      ⟨githubRE "ghs_", "high"⟩, ⟨githubRE "ghr_", "high"⟩] ""
     ⟨"partial", 4, 0, str "*", []⟩ "critical" true,
   entry "gitlab-token" "GitLab Token" "secrets" [⟨gitlabRE, "high"⟩] ""
     ⟨"partial", 6, 0, str "*", []⟩ "critical" true,
   entry "slack-token" "Slack Token" "secrets" [⟨slackRE, "high"⟩] ""
     ⟨"partial", 4, 0, str "*", []⟩ "critical" true,
   entry "google-api-key" "Google API Key" "secrets" [⟨googleRE, "high"⟩] ""
     ⟨"partial", 4, 0, str "*", []⟩ "critical" true,
   entry "api-key" "Generic API Key" "secrets" [⟨apiKeyRE, "medium"⟩] ""
     ⟨"full", 0, 0, [], str "[API_KEY_REDACTED]"⟩ "high" true,
   entry "jwt" "JWT Token" "secrets" [⟨jwtRE, "high"⟩] ""
     ⟨"partial", 10, 0, str "*", []⟩ "high" true,
   entry "private-key" "Private Key" "secrets" [⟨privateKeyRE, "high"⟩] ""
     ⟨"full", 0, 0, [], str "[PRIVATE_KEY_REDACTED]"⟩ "critical" true,
   entry "password-in-url" "Password in URL" "secrets" [⟨pwUrlRE, "high"⟩] ""
     ⟨"full", 0, 0, [], str "[PASSWORD_REDACTED]"⟩ "critical" true,
   entry "password" "Password" "secrets" [⟨passwordRE, "medium"⟩] ""
     ⟨"full", 0, 0, [], str "[PASSWORD_REDACTED]"⟩ "critical" true,
   entry "database-connection" "Database Connection String" "secrets"
     [⟨dbConnRE, "high"⟩] ""
     ⟨"full", 0, 0, [], str "[DB_CONNECTION_REDACTED]"⟩ "critical" true,
   entry "stripe-key" "Stripe API Key" "secrets"
     [⟨stripeRE "sk_live_", "high"⟩, ⟨stripeRE "sk_test_", "high"⟩,
      ⟨stripeRE "pk_live_", "high"⟩, ⟨stripeRE "pk_test_", "high"⟩] ""
     ⟨"partial", 7, 0, str "*", []⟩ "critical" true,
   entry "sendgrid-key" "SendGrid API Key" "secrets" [⟨sendgridRE, "high"⟩] ""
     ⟨"partial", 3, 0, str "*", []⟩ "critical" true,
   entry "twilio-key" "Twilio API Key/SID" "secrets"
     [⟨twilioRE "AC", "high"⟩, ⟨twilioRE "SK", "high"⟩] ""
     ⟨"partial", 2, 0, str "*", []⟩ "critical" true]

/-- Go `NewEngine()`: built-in catalog loaded, validation enabled. -/
def newEngine : Engine := ⟨builtinPatterns, true⟩

end Builtin

namespace Redactor

open Patterns Detector

/-- Go `RedactResult` (redactor). -/
structure RedactResult where
  originalText : GoStr
  redactedText : GoStr
  detections : List DetectionResult
  redactedCount : Nat
deriving DecidableEq, Repr

/-- The comparator of the `sort.Slice` call in `Redact` /
`RedactWithPatterns`: `detections[i].Position.Start > detections[j].Position.Start`
(no tie-break of any kind). -/
def lessDet (a b : DetectionResult) : Bool := decide (a.start > b.start)

/-- One insertion step of insertion sort with `lessDet`: the element moves
left past every element it is `lessDet`-before, stopping at the first it is
not (so equal starts keep their relative order). -/
def insertDet (x : DetectionResult) : List DetectionResult → List DetectionResult
  | [] => [x]
  | y :: ys => if lessDet x y then x :: y :: ys else y :: insertDet x ys

/-- The `sort.Slice(detections, …)` call.  For the slice lengths arising
here Go's sort runs its insertion sort, which this models exactly; for any
length the Go contract guarantees the non-increasing `start` order proved
below, and guarantees nothing about the order of equal `start`s. -/
def sortDetections (l : List DetectionResult) : List DetectionResult :=
  l.foldl (fun acc x => insertDet x acc) []

/-- The rewrite loop of `Redact`: walks the sorted detections, fills in
`redactedText` per detection when its pattern has a masking strategy, and
splices the mask into the working buffer at the match's byte range (list
indices here; the concrete texts are ASCII). -/
def redactLoop (e : Engine) : List DetectionResult → GoStr →
    List DetectionResult × GoStr
  | [], text => ([], text)
  | d :: ds, text =>
    match getMaskingStrategy e d.patternName with
    | none =>
      let rest := redactLoop e ds text
      (d :: rest.1, rest.2)
    | some strategy =>
      let masked := applyMasking d.matchedText strategy
      let text' := text.take d.start ++ masked ++ text.drop d.stop
      let rest := redactLoop e ds text'
      ({ d with redactedText := masked } :: rest.1, rest.2)

/-- Go `Redactor.Redact` (via `Engine.Detect` on the message text). -/
def redact (e : Engine) (text : GoStr) : RedactResult :=
  let detections := detectInText e text
  if detections = [] then
    ⟨text, text, detections, 0⟩
  else
    let sorted := sortDetections detections
    let result := redactLoop e sorted text
    ⟨text, result.2, result.1, result.1.length⟩

/-- Go `Redactor.RedactWithPatterns`. -/
def redactWithPatterns (e : Engine) (text : GoStr) (patternNames : List String) :
    RedactResult :=
  let detections := detectWithPatterns e text patternNames
  if detections = [] then
    ⟨text, text, detections, 0⟩
  else
    let sorted := sortDetections detections
    let result := redactLoop e sorted text
    ⟨text, result.2, result.1, result.1.length⟩

end Redactor

namespace Semver

/-- Go `Version` (subscription package, version file). -/
structure Version where
  major : Int
  minor : Int
  patch : Int
  pre : String
deriving DecidableEq, Repr

/-- Go `Version.Compare`: `-1` / `0` / `1`; pre-release sorts below the same
triple without one. -/
def compare (v o : Version) : Int :=
  if v.major ≠ o.major then (if v.major < o.major then -1 else 1)
  else if v.minor ≠ o.minor then (if v.minor < o.minor then -1 else 1)
  else if v.patch ≠ o.patch then (if v.patch < o.patch then -1 else 1)
  else if v.pre ≠ "" ∧ o.pre = "" then -1
  else if v.pre = "" ∧ o.pre ≠ "" then 1
  else if v.pre < o.pre then -1
  else if o.pre < v.pre then 1
  else 0

/-- Go `Constraint`: an operator and a version (nil version admits anything). -/
structure Constraint where
  op : String
  version : Option Version
deriving DecidableEq, Repr

/-- Go `Constraint.Matches`; the parameter is `Option Constraint` because the
Go receiver may be nil (nil matches anything). -/
def constraintMatches (c : Option Constraint) (v : Version) : Bool :=
  match c with
  | none => true
  | some c =>
    match c.version with
    | none => true
    | some cv =>
      let cmp := compare v cv
      match c.op with
      | ">=" => decide (cmp ≥ 0)
      | ">" => decide (cmp > 0)
      | "<=" => decide (cmp ≤ 0)
      | "<" => decide (cmp < 0)
      | "=" => decide (cmp = 0)
      | "~" =>
        if cmp < 0 then false
        else decide (v.major = cv.major) && decide (v.minor = cv.minor)
      | "^" =>
        if cmp < 0 then false
        else if cv.major = 0 then decide (v.major = cv.major) && decide (v.minor = cv.minor)
        else decide (v.major = cv.major)
      | _ => decide (cmp = 0)

end Semver

namespace Subscription

/-- Go `PIIRuleSubscription`'s `PendingUpdate` (api types). -/
structure PendingUpdate where
  pattern : String
  currentVersion : String
  availableVersion : String
  changeType : String
  description : String
deriving DecidableEq, Repr

/-- Go `UpdatePolicy` (api types). -/
structure UpdatePolicy where
  automatic : Bool
  requireApproval : List String
  notifyOn : List String
deriving DecidableEq, Repr

/-- Go `Updater.ShouldAutoApply`.  The `Option Bool` result models the Go
return value: when `policy` is nil, `policy == nil || policy.Automatic`
short-circuits to true and the loop header then reads
`policy.RequireApproval` through the nil pointer — a runtime panic,
modelled as `none`. -/
def shouldAutoApply (update : PendingUpdate) (policy : Option UpdatePolicy) : Option Bool :=
  match policy with
  | none => none
  | some p =>
    if p.automatic then some (!(p.requireApproval.contains update.changeType))
    else some false

end Subscription

namespace SourceCache

/-- Go `source.PatternDefinition` (types file); the `TestCases` pointer is
omitted — no cache operation reads it. -/
structure PatternDefinition where
  name : String
  displayName : String
  description : String
  category : String
  patterns : List Patterns.PatternRule
  validator : String
  maskingStrategy : Patterns.MaskingStrategy
  severity : String
  enabled : Bool
deriving DecidableEq, Repr

/-- Go `source.RuleSet`; the `Metadata` block is omitted — no cache
operation reads it. -/
structure RuleSet where
  name : String
  version : String
  description : String
  category : String
  maturity : String
  patterns : List PatternDefinition
deriving DecidableEq, Repr

/-- Go `CachedSource` (cache.go); the wall-clock `LastSync` field is
omitted. -/
structure CachedSource where
  name : String
  ruleSets : List RuleSet
  totalPatterns : Nat
  errorMsg : String
deriving DecidableEq, Repr

/-- Go `CachedPattern` (cache.go); the wall-clock `CachedAt` field is
omitted. -/
structure CachedPattern where
  sourceName : String
  ruleSetName : String
  pattern : PatternDefinition
deriving DecidableEq, Repr

/-- Go `Cache` (cache.go): source map and per-pattern index.  Index keys are
modelled as rune lists so that the `+ "/" +` concatenation of
`patternKey` can be reasoned about. -/
structure Cache where
  sources : List (String × CachedSource)
  patterns : List (List Char × CachedPattern)
deriving DecidableEq, Repr

/-- Go `patternKey`: `sourceName + "/" + ruleSetName + "/" + patternName`. -/
def patternKey (sourceName ruleSetName patternName : String) : List Char :=
  sourceName.data ++ ('/' :: (ruleSetName.data ++ ('/' :: patternName.data)))

/-- The inner pattern loop of `SetSource`'s index update. -/
def indexPatterns (name rsName : String) (ps : List PatternDefinition)
    (m : List (List Char × CachedPattern)) : List (List Char × CachedPattern) :=
  ps.foldl (fun acc p =>
    GoMap.insert acc (patternKey name rsName p.name) ⟨name, rsName, p⟩) m

/-- The pattern-index update loop of `SetSource` (insert an entry for
every pattern of every new rule set; nothing is removed). -/
def indexRuleSets (name : String) (ruleSets : List RuleSet)
    (m : List (List Char × CachedPattern)) : List (List Char × CachedPattern) :=
  ruleSets.foldl (fun acc rs => indexPatterns name rs.name rs.patterns acc) m

/-- Go `SetSource`. -/
def setSource (c : Cache) (name : String) (ruleSets : List RuleSet) : Cache :=
  let totalPatterns := (ruleSets.map (·.patterns.length)).sum
  { sources := GoMap.insert c.sources name ⟨name, ruleSets, totalPatterns, ""⟩
    patterns := indexRuleSets name ruleSets c.patterns }

/-- Go `SetSourceError`. -/
def setSourceError (c : Cache) (name err : String) : Cache :=
  match GoMap.lookup c.sources name with
  | some src =>
    { c with sources := GoMap.insert c.sources name { src with errorMsg := err } }
  | none =>
    { c with sources := GoMap.insert c.sources name ⟨name, [], 0, err⟩ }

/-- The inner pattern loop of `RemoveSource`'s index purge. -/
def unindexPatterns (name rsName : String) (ps : List PatternDefinition)
    (m : List (List Char × CachedPattern)) : List (List Char × CachedPattern) :=
  ps.foldl (fun acc p => GoMap.erase acc (patternKey name rsName p.name)) m

/-- The rule-set loop of `RemoveSource`'s index purge. -/
def unindexRuleSets (name : String) (ruleSets : List RuleSet)
    (m : List (List Char × CachedPattern)) : List (List Char × CachedPattern) :=
  ruleSets.foldl (fun acc rs => unindexPatterns name rs.name rs.patterns acc) m

/-- Go `RemoveSource`: deletes the index entries derived from the *currently
stored* rule sets of the source, then the source itself. -/
def removeSource (c : Cache) (name : String) : Cache :=
  let patterns :=
    match GoMap.lookup c.sources name with
    | some src => unindexRuleSets name src.ruleSets c.patterns
    | none => c.patterns
  { sources := GoMap.erase c.sources name, patterns := patterns }

/-- One cache mutation, for quantifying over operation sequences. -/
inductive CacheOp where
  | set (name : String) (ruleSets : List RuleSet)
  | setErr (name msg : String)
  | remove (name : String)
deriving DecidableEq, Repr

/-- Apply one operation. -/
def applyOp (c : Cache) : CacheOp → Cache
  | .set name ruleSets => setSource c name ruleSets
  | .setErr name msg => setSourceError c name msg
  | .remove name => removeSource c name

/-- Go `NewCache` followed by a sequence of operations. -/
def runOps (ops : List CacheOp) : Cache := ops.foldl applyOp ⟨[], []⟩

/-- A name that is unambiguous inside a `patternKey`. -/
def slashFree (s : String) : Prop := '/' ∉ s.data

instance (s : String) : Decidable (slashFree s) := by
  unfold slashFree; infer_instance

/-- All names an operation mentions are slash-free. -/
def opSlashFree : CacheOp → Prop
  | .set name ruleSets =>
    slashFree name ∧ ∀ rs ∈ ruleSets, slashFree rs.name ∧ ∀ p ∈ rs.patterns, slashFree p.name
  | .setErr name _ => slashFree name
  | .remove name => slashFree name

instance (op : CacheOp) : Decidable (opSlashFree op) := by
  cases op <;> simp only [opSlashFree] <;> infer_instance

/-- Well-formedness of a cache reachable from slash-free operations:
source keys are distinct, every stored source sits at its own name, and
all names occurring in it are slash-free. -/
def wf (c : Cache) : Prop :=
  (c.sources.map Prod.fst).Nodup ∧
  ∀ kv ∈ c.sources, kv.1 = kv.2.name ∧ slashFree kv.2.name ∧
    ∀ rs ∈ kv.2.ruleSets, slashFree rs.name ∧ ∀ p ∈ rs.patterns, slashFree p.name

/-- The provable half of the index invariant: every pattern of every
stored rule set has an index entry. -/
def indexed (c : Cache) : Prop :=
  ∀ kv ∈ c.sources, ∀ rs ∈ kv.2.ruleSets, ∀ p ∈ rs.patterns,
    GoMap.lookup c.patterns (patternKey kv.1 rs.name p.name) ≠ none

end SourceCache

namespace Fixtures

open Patterns Detector Regexp

/-- The multi-PII sample line of the spec's first end-to-end scenario. -/
def sampleInput : GoStr :=
  str "User test@example.com from 010-1234-5678 with IP 192.168.1.1"

/-- A regex compiler covering the one concrete regex string the fixtures
feed to `AddPattern`. -/
def toyCompile : String → Option RE := fun s =>
  if s = "a+" then some (atLeast (one 97) 1) else none

/-- A pattern spec carrying a category and `enabled = true`, to exercise
which spec fields `AddPattern` stores. -/
def customSpec : PIIPatternSpec :=
  ⟨"Custom Pattern", "detects runs of the letter a", "custom-category",
   [⟨"a+", "high"⟩], "", ⟨"partial", 1, 0, str "*", []⟩, "high", true⟩

/-- A pattern spec whose rule list is empty. -/
def emptyRulesSpec : PIIPatternSpec :=
  ⟨"Empty", "", "", [], "", ⟨"full", 0, 0, [], []⟩, "low", true⟩

/-- An engine holding two enabled literal patterns ("ab" and "abc") that
match at the same start with different ends, listed shorter-first (one of
the iteration orders the randomized Go map produces). -/
def overlapEngine : Engine :=
  ⟨[("ab-pattern", ⟨"ab-pattern", "AB", "", [⟨lit "ab", "high"⟩], "",
      ⟨"full", 0, 0, [], str "[AB]"⟩, "low", true⟩),
    ("abc-pattern", ⟨"abc-pattern", "ABC", "", [⟨lit "abc", "high"⟩], "",
      ⟨"full", 0, 0, [], str "[ABC]"⟩, "low", true⟩)],
   true⟩

/-- A rule set named "r" holding one trivially defined pattern. -/
def rsWith (pname : String) : SourceCache.RuleSet :=
  ⟨"r", "1.0.0", "", "", "stable",
   [⟨pname, "", "", "", [], "", ⟨"full", 0, 0, [], []⟩, "low", true⟩]⟩

/-- Replace source "s" twice: first with pattern "p", then with pattern
"q" only. -/
def staleOps : List SourceCache.CacheOp :=
  [.set "s" [rsWith "p"], .set "s" [rsWith "q"]]

/-- A pending major-version update. -/
def majorUpdate : Subscription.PendingUpdate :=
  ⟨"credit-card", "1.5.0", "2.1.0", "majorVersion", "Version update available"⟩

end Fixtures

/-! Helper lemmas. -/

namespace GoMap

theorem lookup_insert_self {κ ν : Type} [DecidableEq κ] (m : List (κ × ν)) (k : κ) (v : ν) :
    lookup (insert m k v) k = some v := by
  induction m with
  | nil => simp [insert, lookup]
  | cons kv rest ih =>
    obtain ⟨k0, v0⟩ := kv
    by_cases h : k0 = k
    · simp [insert, h, lookup]
    · simp [insert, h, lookup, ih]

theorem lookup_insert_ne {κ ν : Type} [DecidableEq κ] (m : List (κ × ν)) (k k' : κ) (v : ν)
    (h : k' ≠ k) : lookup (insert m k v) k' = lookup m k' := by
  induction m with
  | nil => simp [insert, lookup, Ne.symm h]
  | cons kv rest ih =>
    obtain ⟨k0, v0⟩ := kv
    by_cases h0 : k0 = k
    · subst h0
      simp [insert, lookup, Ne.symm h]
    · simp [insert, h0, lookup, ih]

theorem lookup_ne_none_insert {κ ν : Type} [DecidableEq κ] (m : List (κ × ν)) (k k' : κ)
    (v : ν) (h : lookup m k' ≠ none) : lookup (insert m k v) k' ≠ none := by
  by_cases hk : k' = k
  · subst hk; simp [lookup_insert_self]
  · rwa [lookup_insert_ne m k k' v hk]

theorem lookup_erase_ne {κ ν : Type} [DecidableEq κ] (m : List (κ × ν)) (k k' : κ)
    (h : k' ≠ k) : lookup (erase m k) k' = lookup m k' := by
  induction m with
  | nil => simp [erase]
  | cons kv rest ih =>
    obtain ⟨k0, v0⟩ := kv
    by_cases h0 : k0 = k
    · subst h0
      simp [erase, lookup, Ne.symm h]
    · simp [erase, h0, lookup, ih]

theorem mem_insert {κ ν : Type} [DecidableEq κ] (m : List (κ × ν)) (k : κ) (v : ν)
    (x : κ × ν) (h : x ∈ insert m k v) : x = (k, v) ∨ x ∈ m := by
  induction m with
  | nil => simpa [insert] using h
  | cons kv rest ih =>
    obtain ⟨k0, v0⟩ := kv
    by_cases h0 : k0 = k
    · simp only [insert, if_pos h0, List.mem_cons] at h
      rcases h with h | h
      · exact Or.inl h
      · exact Or.inr (List.mem_cons_of_mem _ h)
    · simp only [insert, if_neg h0, List.mem_cons] at h
      rcases h with h | h
      · exact Or.inr (h ▸ List.mem_cons_self _ _)
      · rcases ih h with h | h
        · exact Or.inl h
        · exact Or.inr (List.mem_cons_of_mem _ h)

theorem keys_insert_nodup {κ ν : Type} [DecidableEq κ] (m : List (κ × ν)) (k : κ) (v : ν)
    (h : (m.map Prod.fst).Nodup) : ((insert m k v).map Prod.fst).Nodup := by
  induction m with
  | nil => simp [insert]
  | cons kv rest ih =>
    obtain ⟨k0, v0⟩ := kv
    simp only [List.map_cons, List.nodup_cons] at h
    by_cases h0 : k0 = k
    · subst h0
      simpa [insert, List.nodup_cons] using h
    · simp only [insert, if_neg h0, List.map_cons, List.nodup_cons]
      refine ⟨fun hmem => ?_, ih h.2⟩
      rcases List.mem_map.1 hmem with ⟨x, hx, hfst⟩
      rcases mem_insert rest k v x hx with rfl | hx'
      · exact h0 hfst.symm
      · exact h.1 (List.mem_map.2 ⟨x, hx', hfst⟩)

theorem mem_erase_of_nodup {κ ν : Type} [DecidableEq κ] (m : List (κ × ν)) (k : κ)
    (hn : (m.map Prod.fst).Nodup) (x : κ × ν) (h : x ∈ erase m k) : x ∈ m ∧ x.1 ≠ k := by
  induction m with
  | nil => simp [erase] at h
  | cons kv rest ih =>
    obtain ⟨k0, v0⟩ := kv
    simp only [List.map_cons, List.nodup_cons] at hn
    by_cases h0 : k0 = k
    · subst h0
      simp only [erase, if_pos rfl] at h
      refine ⟨List.mem_cons_of_mem _ h, fun hk => ?_⟩
      exact hn.1 (List.mem_map.2 ⟨x, h, hk⟩)
    · simp only [erase, if_neg h0, List.mem_cons] at h
      rcases h with rfl | h
      · exact ⟨List.mem_cons_self _ _, h0⟩
      · rcases ih hn.2 h with ⟨hmem, hne⟩
        exact ⟨List.mem_cons_of_mem _ hmem, hne⟩

theorem keys_erase_nodup {κ ν : Type} [DecidableEq κ] (m : List (κ × ν)) (k : κ)
    (h : (m.map Prod.fst).Nodup) : ((erase m k).map Prod.fst).Nodup := by
  induction m with
  | nil => simp [erase]
  | cons kv rest ih =>
    obtain ⟨k0, v0⟩ := kv
    simp only [List.map_cons, List.nodup_cons] at h
    by_cases h0 : k0 = k
    · simpa [erase, h0] using h.2
    · simp only [erase, if_neg h0, List.map_cons, List.nodup_cons]
      refine ⟨fun hmem => ?_, ih h.2⟩
      rcases List.mem_map.1 hmem with ⟨x, hx, hfst⟩
      exact h.1 (List.mem_map.2 ⟨x, (mem_erase_of_nodup rest k h.2 x hx).1, hfst⟩)

theorem lookup_mem {κ ν : Type} [DecidableEq κ] (m : List (κ × ν)) (k : κ) (v : ν)
    (h : lookup m k = some v) : (k, v) ∈ m := by
  induction m with
  | nil => simp [lookup] at h
  | cons kv rest ih =>
    obtain ⟨k0, v0⟩ := kv
    by_cases h0 : k0 = k
    · subst h0
      simp only [lookup, if_pos, Option.some.injEq] at h
      subst h
      exact List.mem_cons_self _ _
    · simp only [lookup, if_neg h0] at h
      exact List.mem_cons_of_mem _ (ih h)

end GoMap

theorem repeatStr_length (s : GoStr) (n : Nat) : (repeatStr s n).length = n * s.length := by
  induction n with
  | zero => simp [repeatStr]
  | succ n ih => simp [repeatStr, ih, Nat.succ_mul, Nat.add_comm]

theorem byteLen_ascii (s : GoStr) (h : ∀ c ∈ s, c < 128) : byteLen s = s.length := by
  induction s with
  | nil => rfl
  | cons c cs ih =>
    have hc : c < 128 := h c (List.mem_cons_self _ _)
    have ihh := ih fun x hx => h x (List.mem_cons_of_mem _ hx)
    simp only [byteLen, List.map_cons, List.sum_cons, List.length_cons] at *
    rw [ihh, utf8Size, if_pos hc, Nat.add_comm]

/-! Claim C1. -/

/-- Claim C1 counterexample: the claim says a `full` strategy with empty
replacement masks to the *code-point* length of the match, so the Hangul
syllable "가" (one code point, three UTF-8 bytes) should mask to a single
`*`; `ApplyMasking` returns three (`strings.Repeat(maskChar, len(text))`
counts bytes). -/
theorem claim_C1_counterexample :
    (Redactor.applyMasking (str "가") ⟨"full", 0, 0, [], []⟩).length = 3 ∧
    (str "가").length = 1 := by decide

/-- Claim C1 (amended): for a `full` strategy with empty replacement,
`ApplyMasking` repeats the mask char (default `*`) once per *byte* of the
match text, so the output's code-point length equals the input's only when
the input is ASCII (single-byte runes) and the mask char is one rune. -/
theorem claim_C1 (text : GoStr) (strategy : Patterns.MaskingStrategy)
    (ht : strategy.stype = "full") (hr : strategy.replacement = []) :
    Redactor.applyMasking text strategy =
      repeatStr (Redactor.getMaskChar strategy) (byteLen text) ∧
    ((Redactor.getMaskChar strategy).length = 1 → (∀ c ∈ text, c < 128) →
      (Redactor.applyMasking text strategy).length = text.length) := by
  have hmain : Redactor.applyMasking text strategy =
      repeatStr (Redactor.getMaskChar strategy) (byteLen text) := by
    simp [Redactor.applyMasking, ht, hr]
  refine ⟨hmain, fun h1 hascii => ?_⟩
  rw [hmain, repeatStr_length, h1, Nat.mul_one, byteLen_ascii text hascii]

/-- Witness for claim C1 at the concrete match text "ab가" and the default
full strategy. -/
theorem claim_C1_witness :
    Redactor.applyMasking (str "ab가") ⟨"full", 0, 0, [], []⟩ =
      repeatStr (Redactor.getMaskChar ⟨"full", 0, 0, [], []⟩) (byteLen (str "ab가")) ∧
    ((Redactor.getMaskChar ⟨"full", 0, 0, [], []⟩).length = 1 →
      (∀ c ∈ str "ab가", c < 128) →
      (Redactor.applyMasking (str "ab가") ⟨"full", 0, 0, [], []⟩).length =
        (str "ab가").length) :=
  claim_C1 (str "ab가") ⟨"full", 0, 0, [], []⟩ rfl rfl

/-! Claim C2. -/

/-- Claim C2 (code bug): `AddPattern`'s composite literal omits the
`Category` and `Enabled` fields, so a spec added with
`category = "custom-category"` and `enabled = true` is stored with
category `""` and `enabled = false`, and `DetectInText` then skips it
(here on text "aaa", which its regex `a+` matches). -/
theorem claim_C2 :
    (Detector.addPattern Fixtures.toyCompile ⟨[], true⟩ "my-pattern" Fixtures.customSpec).1 =
      none ∧
    GoMap.lookup (Detector.addPattern Fixtures.toyCompile ⟨[], true⟩ "my-pattern"
        Fixtures.customSpec).2.patterns "my-pattern" =
      some ⟨"my-pattern", "Custom Pattern", "", [⟨Regexp.atLeast (Regexp.one 97) 1, "high"⟩],
            "", ⟨"partial", 1, 0, str "*", []⟩, "high", false⟩ ∧
    Detector.detectInText (Detector.addPattern Fixtures.toyCompile ⟨[], true⟩ "my-pattern"
        Fixtures.customSpec).2 (str "aaa") = [] := by decide

/-! Claim C3. -/

theorem compileRules_eq_none {compile : String → Option Regexp.RE}
    {rules : List Patterns.PatternRule} (p : Patterns.PatternRule) (hp : p ∈ rules)
    (hc : compile p.regex = none) : Detector.compileRules compile rules = none := by
  induction rules with
  | nil => cases hp
  | cons q qs ih =>
    rcases List.mem_cons.1 hp with rfl | hmem
    · simp [Detector.compileRules, hc]
    · unfold Detector.compileRules
      cases compile q.regex with
      | none => rfl
      | some re => rw [ih hmem]

/-- Claim C3: when some regex of the spec fails to compile, `AddPattern`
returns an error and the engine (in particular its pattern catalog) is
exactly what it was. -/
theorem claim_C3 (compile : String → Option Regexp.RE) (e : Detector.Engine) (key : String)
    (spec : Patterns.PIIPatternSpec)
    (h : ∃ p ∈ spec.patterns, compile p.regex = none) :
    (Detector.addPattern compile e key spec).1.isSome = true ∧
    (Detector.addPattern compile e key spec).2 = e := by
  obtain ⟨p, hp, hc⟩ := h
  have hnone := compileRules_eq_none p hp hc
  simp [Detector.addPattern, hnone]

/-- Witness for claim C3: a compiler rejecting everything, on a spec with
one rule. -/
theorem claim_C3_witness :
    (∃ p ∈ Fixtures.customSpec.patterns,
        (fun _ : String => (none : Option Regexp.RE)) p.regex = none) ∧
    ((Detector.addPattern (fun _ => none) ⟨[], true⟩ "k" Fixtures.customSpec).1.isSome = true ∧
     (Detector.addPattern (fun _ => none) ⟨[], true⟩ "k" Fixtures.customSpec).2 = ⟨[], true⟩) :=
  ⟨⟨⟨"a+", "high"⟩, by decide, rfl⟩,
   claim_C3 (fun _ => none) ⟨[], true⟩ "k" Fixtures.customSpec
     ⟨⟨"a+", "high"⟩, by decide, rfl⟩⟩

/-! Claim C6. -/

/-- Claim C6 counterexample: `AddPattern` with an empty rule list returns
nil error and inserts a catalog entry (the claim says it errors and
inserts nothing). -/
theorem claim_C6_counterexample :
    (Detector.addPattern (fun _ => none) ⟨[], true⟩ "empty-pattern"
        Fixtures.emptyRulesSpec).1 = none ∧
    GoMap.lookup (Detector.addPattern (fun _ => none) ⟨[], true⟩ "empty-pattern"
        Fixtures.emptyRulesSpec).2.patterns "empty-pattern" ≠ none := by decide

/-- Claim C6 (amended): `AddPattern` on a spec with an empty rule list
succeeds (nil error) and inserts an entry with no compiled rules (and the
zero-valued category/enabled fields). -/
theorem claim_C6 (compile : String → Option Regexp.RE) (e : Detector.Engine) (key : String)
    (spec : Patterns.PIIPatternSpec) (h : spec.patterns = []) :
    (Detector.addPattern compile e key spec).1 = none ∧
    GoMap.lookup (Detector.addPattern compile e key spec).2.patterns key =
      some ⟨key, spec.displayName, "", [], spec.validator, spec.maskingStrategy,
            spec.severity, false⟩ := by
  simp [Detector.addPattern, h, Detector.compileRules, GoMap.lookup_insert_self]

/-- Witness for claim C6 at a concrete empty-ruled spec. -/
theorem claim_C6_witness :
    Fixtures.emptyRulesSpec.patterns = [] ∧
    ((Detector.addPattern Fixtures.toyCompile ⟨[], true⟩ "k" Fixtures.emptyRulesSpec).1 =
        none ∧
     GoMap.lookup (Detector.addPattern Fixtures.toyCompile ⟨[], true⟩ "k"
         Fixtures.emptyRulesSpec).2.patterns "k" =
       some ⟨"k", Fixtures.emptyRulesSpec.displayName, "", [],
             Fixtures.emptyRulesSpec.validator, Fixtures.emptyRulesSpec.maskingStrategy,
             Fixtures.emptyRulesSpec.severity, false⟩) :=
  ⟨rfl, claim_C6 Fixtures.toyCompile ⟨[], true⟩ "k" Fixtures.emptyRulesSpec rfl⟩

/-! Claim C9. -/

/-- Claim C9 counterexample: with a nil policy `ShouldAutoApply` panics
(none), it does not return false. -/
theorem claim_C9_counterexample :
    Subscription.shouldAutoApply Fixtures.majorUpdate none ≠ some false := by decide

/-- Claim C9 (amended): with a non-nil policy, `ShouldAutoApply` returns
true iff the policy is automatic and the update's change kind is not in
the require-approval list; with a nil policy it dereferences the nil
pointer (a runtime panic, `none` here) instead of returning false. -/
theorem claim_C9 (u : Subscription.PendingUpdate) (p : Subscription.UpdatePolicy) :
    (Subscription.shouldAutoApply u (some p) = some true ↔
      (p.automatic = true ∧ u.changeType ∉ p.requireApproval)) ∧
    Subscription.shouldAutoApply u none = none := by
  refine ⟨?_, rfl⟩
  cases hp : p.automatic with
  | false => simp [Subscription.shouldAutoApply, hp]
  | true => simp [Subscription.shouldAutoApply, hp, List.elem_iff]

/-! Claim C10. -/

theorem scanPattern_validation (e e' : Detector.Engine)
    (h : e.validationEnabled = e'.validationEnabled) (pat : Detector.CompiledPattern)
    (text : GoStr) : Detector.scanPattern e pat text = Detector.scanPattern e' pat text := by
  simp [Detector.scanPattern, Detector.keepMatch, h]

theorem scanPattern_enabled (e : Detector.Engine) (pat : Detector.CompiledPattern) (b : Bool)
    (text : GoStr) :
    Detector.scanPattern e { pat with enabled := b } text = Detector.scanPattern e pat text :=
  rfl

theorem flatMap_if_filter {α β : Type} (l : List α) (p : α → Bool) (f : α → List β) :
    (l.flatMap fun x => if p x then f x else []) = (l.filter p).flatMap f := by
  induction l with
  | nil => rfl
  | cons a t ih => cases h : p a <;> simp [h, ih]

/-- Claim C10: `DetectWithPatterns` scans named patterns regardless of
their `Enabled` flag (disabling a pattern changes nothing about it), while
`DetectInText` consults exactly the enabled patterns. -/
theorem claim_C10 (e : Detector.Engine) (text : GoStr) (names : List String) (key : String) :
    Detector.detectWithPatterns (Detector.disablePattern e key) text names =
      Detector.detectWithPatterns e text names ∧
    Detector.detectInText e text =
      (e.patterns.filter fun kv => kv.2.enabled).flatMap fun kv =>
        Detector.scanPattern e kv.2 text := by
  constructor
  · unfold Detector.disablePattern
    cases hl : GoMap.lookup e.patterns key with
    | none => rfl
    | some pat =>
      unfold Detector.detectWithPatterns
      induction names with
      | nil => rfl
      | cons n ns ih =>
        simp only [List.flatMap_cons]
        rw [ih]
        congr 1
        by_cases hn : n = key
        · subst hn
          rw [GoMap.lookup_insert_self, hl]
          exact (scanPattern_enabled _ pat false text).trans
            (scanPattern_validation _ e rfl pat text)
        · rw [GoMap.lookup_insert_ne _ _ _ _ hn]
          cases GoMap.lookup e.patterns n with
          | none => rfl
          | some q => exact scanPattern_validation _ e rfl q text
  · exact flatMap_if_filter e.patterns _ _

/-! Claim C5. -/

/-- Claim C5 counterexample: on the engine holding the enabled literal
patterns "ab" and "abc" (in that iteration order) and input "abc", the
returned detections are start-equal with *ascending* ends — the comparator
passed to `sort.Slice` compares starts only, so there is no descending-end
tie-break. -/
theorem claim_C5_counterexample :
    ((Redactor.redact Fixtures.overlapEngine (str "abc")).detections.map fun d =>
      (d.start, d.stop)) = [(0, 2), (0, 3)] ∧
    ¬ List.Pairwise (fun a b : Nat × Nat => a.1 > b.1 ∨ (a.1 = b.1 ∧ a.2 ≥ b.2))
        [(0, 2), (0, 3)] := by decide

theorem mem_insertDet (x y : Detector.DetectionResult) (l : List Detector.DetectionResult) :
    y ∈ Redactor.insertDet x l ↔ y = x ∨ y ∈ l := by
  induction l with
  | nil => simp [Redactor.insertDet]
  | cons z zs ih =>
    by_cases h : Redactor.lessDet x z
    · simp [Redactor.insertDet, h]
    · simp [Redactor.insertDet, h, ih]
      tauto

theorem pairwise_insertDet (x : Detector.DetectionResult) (l : List Detector.DetectionResult)
    (h : l.Pairwise fun a b => b.start ≤ a.start) :
    (Redactor.insertDet x l).Pairwise fun a b => b.start ≤ a.start := by
  induction l with
  | nil => simp [Redactor.insertDet]
  | cons y ys ih =>
    rcases List.pairwise_cons.1 h with ⟨hy, hys⟩
    by_cases hxy : Redactor.lessDet x y
    · have hx : x.start > y.start := by simpa [Redactor.lessDet] using hxy
      rw [Redactor.insertDet, if_pos hxy]
      refine List.pairwise_cons.2 ⟨?_, h⟩
      intro z hz
      rcases List.mem_cons.1 hz with rfl | hz'
      · omega
      · have := hy z hz'; omega
    · have hx : ¬ x.start > y.start := by simpa [Redactor.lessDet] using hxy
      rw [Redactor.insertDet, if_neg hxy]
      refine List.pairwise_cons.2 ⟨?_, ih hys⟩
      intro z hz
      rcases (mem_insertDet x z ys).1 hz with rfl | hz'
      · omega
      · exact hy z hz'

theorem sortDetections_pairwise (l : List Detector.DetectionResult) :
    (Redactor.sortDetections l).Pairwise fun a b => b.start ≤ a.start := by
  have main : ∀ acc, acc.Pairwise (fun a b => b.start ≤ a.start) →
      (l.foldl (fun acc x => Redactor.insertDet x acc) acc).Pairwise
        fun a b => b.start ≤ a.start := by
    induction l with
    | nil => exact fun acc h => h
    | cons x xs ih => exact fun acc h => ih _ (pairwise_insertDet x acc h)
  exact main [] List.Pairwise.nil

theorem redactLoop_starts (e : Detector.Engine) (l : List Detector.DetectionResult)
    (t : GoStr) :
    (Redactor.redactLoop e l t).1.map (fun d => (d.start, d.stop)) =
      l.map fun d => (d.start, d.stop) := by
  induction l generalizing t with
  | nil => rfl
  | cons d ds ih =>
    unfold Redactor.redactLoop
    cases Detector.getMaskingStrategy e d.patternName <;> simp [ih]

/-- Claim C5 (amended): `Redact` returns its detections in non-increasing
start order (the `sort.Slice` comparator compares starts only); detections
with equal starts keep the order the detection pass produced — they are
*not* reordered by end position. -/
theorem claim_C5 (e : Detector.Engine) (text : GoStr) :
    (Redactor.redact e text).detections.Pairwise fun a b => b.start ≤ a.start := by
  unfold Redactor.redact
  by_cases h : Detector.detectInText e text = []
  · simp [h]
  · rw [if_neg h]
    have hs := sortDetections_pairwise (Detector.detectInText e text)
    have hm := redactLoop_starts e (Redactor.sortDetections (Detector.detectInText e text))
      text
    have h1 : ((Redactor.redactLoop e
        (Redactor.sortDetections (Detector.detectInText e text)) text).1.map
          (fun d => (d.start, d.stop))).Pairwise
        (fun a b : Nat × Nat => b.1 ≤ a.1) := by
      rw [hm]
      exact (List.pairwise_map).2 hs
    exact (List.pairwise_map).1 h1

/-! Claim C8. -/

theorem compare_nopre (a b c d e f : Int) :
    Semver.compare ⟨a, b, c, ""⟩ ⟨d, e, f, ""⟩ =
      (if a ≠ d then (if a < d then -1 else 1)
       else if b ≠ e then (if b < e then -1 else 1)
       else if c ≠ f then (if c < f then -1 else 1)
       else 0) := by
  have hlt : ¬ ("" : String) < "" := gt_irrefl ""
  simp [Semver.compare, hlt]

/-- Claim C8: the caret-constraint law.  `^X.Y.Z` (pre-release-free)
accepts `W.U.V` (pre-release-free) iff `X>0 ∧ W=X ∧ (U,V) ≥ (Y,Z)`
lexicographically, or `X=0 ∧ W=X ∧ U=Y ∧ V≥Z`. -/
theorem claim_C8 (W U V X Y Z : Int) (hX : 0 ≤ X) :
    (Semver.constraintMatches (some ⟨"^", some ⟨X, Y, Z, ""⟩⟩) ⟨W, U, V, ""⟩ = true) ↔
      ((0 < X ∧ W = X ∧ (Y < U ∨ (U = Y ∧ Z ≤ V))) ∨
       (X = 0 ∧ W = X ∧ U = Y ∧ Z ≤ V)) := by
  have hcm : Semver.constraintMatches (some ⟨"^", some ⟨X, Y, Z, ""⟩⟩) ⟨W, U, V, ""⟩ =
      (if Semver.compare ⟨W, U, V, ""⟩ ⟨X, Y, Z, ""⟩ < 0 then false
       else if X = 0 then decide (W = X) && decide (U = Y)
       else decide (W = X)) := rfl
  rw [hcm, compare_nopre]
  split_ifs <;> simp_all <;> omega

/-- Witness for claim C8: `^1.2.3` accepts `1.5.0`. -/
theorem claim_C8_witness :
    (0 : Int) ≤ 1 ∧
    ((Semver.constraintMatches (some ⟨"^", some ⟨1, 2, 3, ""⟩⟩) ⟨1, 5, 0, ""⟩ = true) ↔
      ((0 < (1 : Int) ∧ (1 : Int) = 1 ∧ ((2 : Int) < 5 ∨ ((5 : Int) = 2 ∧ (3 : Int) ≤ 0))) ∨
       ((1 : Int) = 0 ∧ (1 : Int) = 1 ∧ (5 : Int) = 2 ∧ (3 : Int) ≤ 0))) :=
  ⟨by norm_num, claim_C8 1 5 0 1 2 3 (by norm_num)⟩

/-! Claim C4. -/

/-- Claim C4 counterexample: on the sample line the redactor masks the
email match to "te**************" (2 kept + 14 masked code points for the
16-code-point match) and the phone match to "010******5678" (partial
masking overwrites the middle hyphens), not the claimed
"te****************" and "010-***-5678". -/
theorem claim_C4_counterexample :
    ((Redactor.redact Builtin.newEngine Fixtures.sampleInput).detections.map fun d =>
      (d.patternName, d.redactedText)) =
      [("phone-kr", str "010******5678"), ("email", str "te**************")] ∧
    str "010******5678" ≠ str "010-***-5678" ∧
    str "te**************" ≠ str "te****************" := by decide

/-- Claim C4 (amended): on the sample line, the freshly constructed
engine with default built-ins and validation enabled detects exactly the
`email` match at bytes [5,21) and the `phone-kr` match at [27,40) — in
particular no `ip-address` detection — and the redactor masks them to
"te**************" and "010******5678" respectively. -/
theorem claim_C4 :
    (Detector.detectInText Builtin.newEngine Fixtures.sampleInput).map
        (fun d => (d.patternName, d.start, d.stop)) =
      [("email", 5, 21), ("phone-kr", 27, 40)] ∧
    ((Redactor.redact Builtin.newEngine Fixtures.sampleInput).detections.map fun d =>
      (d.patternName, d.matchedText, d.redactedText)) =
      [("phone-kr", str "010-1234-5678", str "010******5678"),
       ("email", str "test@example.com", str "te**************")] ∧
    (Redactor.redact Builtin.newEngine Fixtures.sampleInput).redactedText =
      str "User te************** from 010******5678 with IP 192.168.1.1" := by decide


/-! Claim C7. -/

namespace SourceCache

theorem append_slash_inj : ∀ (a b x y : List Char), '/' ∉ a → '/' ∉ b →
    a ++ '/' :: x = b ++ '/' :: y → a = b ∧ x = y
  | [], [], _, _, _, _, h => by simpa using h
  | [], c :: _, _, _, _, hb, h => by
    simp only [List.nil_append, List.cons_append, List.cons.injEq] at h
    exact (hb (List.mem_cons.2 (Or.inl h.1))).elim
  | c :: as, [], _, _, ha, _, h => by
    simp only [List.cons_append, List.nil_append, List.cons.injEq] at h
    exact (ha (List.mem_cons.2 (Or.inl h.1.symm))).elim
  | c :: as, c' :: bs, x, y, ha, hb, h => by
    simp only [List.cons_append, List.cons.injEq] at h
    have res := append_slash_inj as bs x y
      (fun hm => ha (List.mem_cons_of_mem _ hm))
      (fun hm => hb (List.mem_cons_of_mem _ hm)) h.2
    exact ⟨by rw [h.1, res.1], res.2⟩

theorem patternKey_ne {s s' : String} (r r' p p' : String) (hs : slashFree s)
    (hs' : slashFree s') (hne : s ≠ s') :
    patternKey s r p ≠ patternKey s' r' p' := by
  intro h
  unfold patternKey at h
  have hdata := (append_slash_inj s.data s'.data _ _ hs hs' h).1
  apply hne
  cases s with
  | mk ls =>
    cases s' with
    | mk ls' =>
      simp only at hdata
      rw [hdata]

theorem lookup_ne_none_indexPatterns (n rn : String) (ps : List PatternDefinition)
    (m : List (List Char × CachedPattern)) (k : List Char) (h : GoMap.lookup m k ≠ none) :
    GoMap.lookup (indexPatterns n rn ps m) k ≠ none := by
  induction ps generalizing m with
  | nil => exact h
  | cons p ps ih =>
    simp only [indexPatterns, List.foldl_cons] at *
    exact ih _ (GoMap.lookup_ne_none_insert _ _ _ _ h)

theorem lookup_indexPatterns_self (n rn : String) :
    ∀ (ps : List PatternDefinition) (m : List (List Char × CachedPattern))
      (p : PatternDefinition), p ∈ ps →
      GoMap.lookup (indexPatterns n rn ps m) (patternKey n rn p.name) ≠ none
  | [], _, p, hp => absurd hp (List.not_mem_nil p)
  | q :: qs, m, p, hp => by
    rcases List.mem_cons.1 hp with rfl | hmem
    · have h0 : GoMap.lookup (GoMap.insert m (patternKey n rn p.name) ⟨n, rn, p⟩)
          (patternKey n rn p.name) ≠ none := by simp [GoMap.lookup_insert_self]
      exact lookup_ne_none_indexPatterns n rn qs _ _ h0
    · exact lookup_indexPatterns_self n rn qs _ p hmem

theorem lookup_ne_none_indexRuleSets (n : String) (rss : List RuleSet)
    (m : List (List Char × CachedPattern)) (k : List Char) (h : GoMap.lookup m k ≠ none) :
    GoMap.lookup (indexRuleSets n rss m) k ≠ none := by
  induction rss generalizing m with
  | nil => exact h
  | cons rs rest ih =>
    simp only [indexRuleSets, List.foldl_cons] at *
    exact ih _ (lookup_ne_none_indexPatterns _ _ _ _ _ h)

theorem lookup_indexRuleSets_self (n : String) :
    ∀ (rss : List RuleSet) (m : List (List Char × CachedPattern)) (rs : RuleSet)
      (p : PatternDefinition), rs ∈ rss → p ∈ rs.patterns →
      GoMap.lookup (indexRuleSets n rss m) (patternKey n rs.name p.name) ≠ none
  | [], _, rs, _, hrs, _ => absurd hrs (List.not_mem_nil rs)
  | rs0 :: rest, m, rs, p, hrs, hp => by
    rcases List.mem_cons.1 hrs with rfl | hmem
    · exact lookup_ne_none_indexRuleSets n rest _ _
        (lookup_indexPatterns_self n rs.name rs.patterns m p hp)
    · exact lookup_indexRuleSets_self n rest _ rs p hmem hp

theorem lookup_unindexPatterns_ne (n rn : String) (ps : List PatternDefinition)
    (m : List (List Char × CachedPattern)) (k : List Char)
    (h : ∀ p ∈ ps, k ≠ patternKey n rn p.name) :
    GoMap.lookup (unindexPatterns n rn ps m) k = GoMap.lookup m k := by
  induction ps generalizing m with
  | nil => rfl
  | cons p ps ih =>
    simp only [unindexPatterns, List.foldl_cons] at *
    rw [ih _ fun q hq => h q (List.mem_cons_of_mem _ hq),
        GoMap.lookup_erase_ne _ _ _ (h p (List.mem_cons_self _ _))]

theorem lookup_unindexRuleSets_ne (n : String) (rss : List RuleSet)
    (m : List (List Char × CachedPattern)) (k : List Char)
    (h : ∀ rs ∈ rss, ∀ p ∈ rs.patterns, k ≠ patternKey n rs.name p.name) :
    GoMap.lookup (unindexRuleSets n rss m) k = GoMap.lookup m k := by
  induction rss generalizing m with
  | nil => rfl
  | cons rs rest ih =>
    simp only [unindexRuleSets, List.foldl_cons] at *
    rw [ih _ fun rs' hrs' => h rs' (List.mem_cons_of_mem _ hrs'),
        lookup_unindexPatterns_ne _ _ _ _ _ (h rs (List.mem_cons_self _ _))]

/-- The inductive invariant: well-formedness plus the index-superset
property. -/
def inv (c : Cache) : Prop := wf c ∧ indexed c

theorem inv_empty : inv ⟨[], []⟩ :=
  ⟨⟨List.nodup_nil, fun kv h => absurd h (List.not_mem_nil kv)⟩,
   fun kv h => absurd h (List.not_mem_nil kv)⟩

theorem inv_setSource (c : Cache) (name : String) (rss : List RuleSet) (hc : inv c)
    (hn : slashFree name)
    (hrs : ∀ rs ∈ rss, slashFree rs.name ∧ ∀ p ∈ rs.patterns, slashFree p.name) :
    inv (setSource c name rss) := by
  obtain ⟨⟨hnod, hwf⟩, hidx⟩ := hc
  refine ⟨⟨GoMap.keys_insert_nodup _ _ _ hnod, ?_⟩, ?_⟩
  · intro kv hkv
    rcases GoMap.mem_insert _ _ _ _ hkv with rfl | hkv'
    · exact ⟨rfl, hn, hrs⟩
    · exact hwf kv hkv'
  · intro kv hkv rs hrs' p hp
    rcases GoMap.mem_insert _ _ _ _ hkv with rfl | hkv'
    · exact lookup_indexRuleSets_self name rss c.patterns rs p hrs' hp
    · exact lookup_ne_none_indexRuleSets name rss c.patterns _ (hidx kv hkv' rs hrs' p hp)

theorem inv_setSourceError (c : Cache) (name err : String) (hc : inv c)
    (hn : slashFree name) : inv (setSourceError c name err) := by
  obtain ⟨⟨hnod, hwf⟩, hidx⟩ := hc
  unfold setSourceError
  cases hl : GoMap.lookup c.sources name with
  | some src =>
    have hmem := GoMap.lookup_mem _ _ _ hl
    have hsrc := hwf (name, src) hmem
    refine ⟨⟨GoMap.keys_insert_nodup _ _ _ hnod, ?_⟩, ?_⟩
    · intro kv hkv
      rcases GoMap.mem_insert _ _ _ _ hkv with rfl | hkv'
      · exact ⟨hsrc.1, hsrc.2.1, hsrc.2.2⟩
      · exact hwf kv hkv'
    · intro kv hkv rs hrs p hp
      rcases GoMap.mem_insert _ _ _ _ hkv with rfl | hkv'
      · exact hidx (name, src) hmem rs hrs p hp
      · exact hidx kv hkv' rs hrs p hp
  | none =>
    refine ⟨⟨GoMap.keys_insert_nodup _ _ _ hnod, ?_⟩, ?_⟩
    · intro kv hkv
      rcases GoMap.mem_insert _ _ _ _ hkv with rfl | hkv'
      · exact ⟨rfl, hn, fun rs hrs => absurd hrs (List.not_mem_nil rs)⟩
      · exact hwf kv hkv'
    · intro kv hkv rs hrs p hp
      rcases GoMap.mem_insert _ _ _ _ hkv with rfl | hkv'
      · exact absurd hrs (List.not_mem_nil rs)
      · exact hidx kv hkv' rs hrs p hp

theorem inv_removeSource (c : Cache) (name : String) (hc : inv c) :
    inv (removeSource c name) := by
  obtain ⟨⟨hnod, hwf⟩, hidx⟩ := hc
  unfold removeSource
  cases hl : GoMap.lookup c.sources name with
  | none =>
    refine ⟨⟨GoMap.keys_erase_nodup _ _ hnod, ?_⟩, ?_⟩
    · intro kv hkv
      exact hwf kv (GoMap.mem_erase_of_nodup _ _ hnod kv hkv).1
    · intro kv hkv rs hrs p hp
      exact hidx kv (GoMap.mem_erase_of_nodup _ _ hnod kv hkv).1 rs hrs p hp
  | some src =>
    have hmemsrc := GoMap.lookup_mem _ _ _ hl
    have hsrc := hwf (name, src) hmemsrc
    refine ⟨⟨GoMap.keys_erase_nodup _ _ hnod, ?_⟩, ?_⟩
    · intro kv hkv
      exact hwf kv (GoMap.mem_erase_of_nodup _ _ hnod kv hkv).1
    · intro kv hkv rs hrs p hp
      obtain ⟨hkv', hkne⟩ := GoMap.mem_erase_of_nodup _ _ hnod kv hkv
      have hkwf := hwf kv hkv'
      rw [lookup_unindexRuleSets_ne]
      · exact hidx kv hkv' rs hrs p hp
      · intro rs' hrs' p' hp'
        have hsn : name = src.name := hsrc.1
        have hkn : kv.1 = kv.2.name := hkwf.1
        refine patternKey_ne _ _ _ _ ?_ ?_ hkne
        · rw [hkn]; exact hkwf.2.1
        · rw [hsn]; exact hsrc.2.1

theorem inv_applyOp (c : Cache) (op : CacheOp) (hop : opSlashFree op) (hc : inv c) :
    inv (applyOp c op) := by
  cases op with
  | set name rss => exact inv_setSource c name rss hc hop.1 hop.2
  | setErr name msg => exact inv_setSourceError c name msg hc hop
  | remove name => exact inv_removeSource c name hc

end SourceCache

/-- Claim C7 counterexample: after `SetSource("s", [rule set "r" with
pattern "p"])` followed by `SetSource("s", [rule set "r" with pattern
"q"])`, the index still contains the entry for `s/r/p` although the
stored rule sets for "s" contain only the pattern "q" — `SetSource` does
not remove entries for patterns absent from the new rule sets. -/
theorem claim_C7_counterexample :
    GoMap.lookup (SourceCache.runOps Fixtures.staleOps).patterns
        (SourceCache.patternKey "s" "r" "p") ≠ none ∧
    (GoMap.lookup (SourceCache.runOps Fixtures.staleOps).sources "s").map
        (fun src => src.ruleSets.map fun rs => rs.patterns.map (·.name)) =
      some [["q"]] := by decide

/-- Claim C7 (amended): for any sequence of cache operations whose source,
rule-set and pattern names are free of '/' (so that `patternKey` is
unambiguous), every pattern of every stored rule set always has an index
entry; the converse inclusion fails (see the counterexample): `SetSource`
leaves stale entries for patterns absent from the new rule sets. -/
theorem claim_C7 (ops : List SourceCache.CacheOp)
    (hops : ∀ op ∈ ops, SourceCache.opSlashFree op) :
    SourceCache.indexed (SourceCache.runOps ops) := by
  suffices h : SourceCache.inv (SourceCache.runOps ops) from h.2
  unfold SourceCache.runOps
  have main : ∀ (l : List SourceCache.CacheOp) (c : SourceCache.Cache), SourceCache.inv c →
      (∀ op ∈ l, SourceCache.opSlashFree op) →
      SourceCache.inv (l.foldl SourceCache.applyOp c) := by
    intro l
    induction l with
    | nil => exact fun c hc _ => hc
    | cons op rest ih =>
      intro c hc hall
      exact ih _ (SourceCache.inv_applyOp c op (hall op (List.mem_cons_self _ _)) hc)
        fun o ho => hall o (List.mem_cons_of_mem _ ho)
  exact main ops ⟨[], []⟩ SourceCache.inv_empty hops

/-- Witness for claim C7 at the concrete two-`SetSource` sequence. -/
theorem claim_C7_witness :
    (∀ op ∈ Fixtures.staleOps, SourceCache.opSlashFree op) ∧
    SourceCache.indexed (SourceCache.runOps Fixtures.staleOps) :=
  ⟨by decide, claim_C7 Fixtures.staleOps (by decide)⟩
